import Mathlib

/-!
# Shallow embedding of the skillsic registry canister (src/canister/src/lib.rs)

This file models, in Lean, the state and the update/query endpoints of the
Rust canister that the claims under verification refer to.  The thread-local
stores (`SKILLS`, `USERS`, `JOBS`, `JOB_COUNTER`, `ENRICHMENT_JOBS`,
`ENRICHMENT_JOB_COUNTER`, `INSTALL_RATE_LIMITS`, `CONFIG`) become one explicit
`CanisterState` record threaded through every operation; `ic_cdk::caller()`
and `ic_cdk::api::time()` become explicit `caller`/`now` parameters.
`HashMap` stores become association lists; `HashMap::insert` replaces the
binding of an existing key and otherwise appends, `get_mut` updates the
binding in place.  Rust `u64`/`u32` values are modelled as `Nat`, with a
`% 2 ^ 64` wrap at the increment sites where the release-build wrapping
semantics of `+=` is observable.  Byte lengths (`str::len`) are modelled via
`String.utf8ByteSize`.  The `PROMPTS` store is omitted: none of the
operations modelled here read or write it.

The worker's JSON payload for `submit_job_result` is modelled at the level of
its serde parse outcome (`WorkerJson`): either the payload deserializes into
the `RawAnalysis` shape or it does not.  The JSON grammar itself (and the
first-brace/last-brace extraction, which only preprocesses the string fed to
serde) is not modelled; everything the code does *after* deserialization
(topic/flag/severity parsing, clamping, and assembly of the stored
`SkillAnalysis`, including its `analyzed_at` / `analyzed_by` / `model_used`
fields) is embedded faithfully.  `f32` fields are modelled as `Float`; no
claim under verification depends on a floating-point value.
-/

set_option maxRecDepth 4096

namespace Skillsic

/-- Principals are opaque identities; `0` is the distinguished anonymous
principal (`Principal::anonymous()`). -/
abbrev Principal := Nat

def Principal.anonymous : Principal := 0

/-! ## Association-list maps (model of `HashMap`) -/

/-- First binding of `k`, mirroring `HashMap::get`. -/
def lookupM {κ α : Type} [DecidableEq κ] : List (κ × α) → κ → Option α
  | [], _ => none
  | (k', v) :: rest, k => if k' = k then some v else lookupM rest k

/-- `HashMap::insert`: replace the binding of an existing key, else add one. -/
def insertM {κ α : Type} [DecidableEq κ] : List (κ × α) → κ → α → List (κ × α)
  | [], k, v => [(k, v)]
  | (k', v') :: rest, k, v =>
      if k' = k then (k', v) :: rest else (k', v') :: insertM rest k v

/-- `HashMap::get_mut` followed by an in-place update (no-op if absent). -/
def updateM {κ α : Type} [DecidableEq κ] : List (κ × α) → κ → (α → α) → List (κ × α)
  | [], _, _ => []
  | (k', v) :: rest, k, f =>
      if k' = k then (k', f v) :: rest else (k', v) :: updateM rest k f

theorem lookupM_insertM {κ α : Type} [DecidableEq κ] (m : List (κ × α)) (k k' : κ) (v : α) :
    lookupM (insertM m k v) k' = if k = k' then some v else lookupM m k' := by
  induction m with
  | nil => simp [insertM, lookupM]
  | cons hd tl ih =>
    obtain ⟨k₀, v₀⟩ := hd
    by_cases h0 : k₀ = k
    · subst h0
      by_cases h1 : k₀ = k' <;> simp [insertM, lookupM, h1]
    · by_cases h1 : k₀ = k'
      · subst h1
        have hk : ¬ k = k₀ := fun h => h0 h.symm
        simp [insertM, lookupM, h0, hk]
      · simp [insertM, lookupM, h0, h1, ih]

theorem lookupM_updateM {κ α : Type} [DecidableEq κ] (m : List (κ × α)) (k k' : κ) (f : α → α) :
    lookupM (updateM m k f) k' =
      if k = k' then (lookupM m k).map f else lookupM m k' := by
  induction m with
  | nil => simp [updateM, lookupM]
  | cons hd tl ih =>
    obtain ⟨k₀, v₀⟩ := hd
    by_cases h0 : k₀ = k
    · subst h0
      by_cases h1 : k₀ = k' <;> simp [updateM, lookupM, h1]
    · by_cases h1 : k₀ = k'
      · subst h1
        have hk : ¬ k = k₀ := fun h => h0 h.symm
        simp [updateM, lookupM, h0, hk]
      · simp [updateM, lookupM, h0, h1, ih]

/-- If the first binding of `k` also satisfies the filter, filtering keeps it
as the first binding of `k`. -/
theorem lookupM_filter_of_keep {κ α : Type} [DecidableEq κ]
    (m : List (κ × α)) (p : κ × α → Bool) (k : κ) (v : α)
    (hl : lookupM m k = some v) (hp : p (k, v) = true) :
    lookupM (m.filter p) k = some v := by
  induction m with
  | nil => simp [lookupM] at hl
  | cons hd tl ih =>
    obtain ⟨k₀, v₀⟩ := hd
    by_cases h0 : k₀ = k
    · subst h0
      simp [lookupM] at hl
      subst hl
      simp [List.filter, hp, lookupM]
    · simp [lookupM, h0] at hl
      by_cases hph : p (k₀, v₀) <;> simp [List.filter, hph, lookupM, h0, ih hl]

/-- A successful lookup exhibits a member of the list. -/
theorem lookupM_mem {κ α : Type} [DecidableEq κ] {m : List (κ × α)} {k : κ} {v : α}
    (h : lookupM m k = some v) : (k, v) ∈ m := by
  induction m with
  | nil => simp [lookupM] at h
  | cons hd tl ih =>
    obtain ⟨k₀, v₀⟩ := hd
    by_cases h0 : k₀ = k
    · subst h0
      simp [lookupM] at h
      subst h
      exact List.mem_cons_self _ _
    · simp [lookupM, h0] at h
      exact List.mem_cons_of_mem _ (ih h)

/-- With duplicate-free keys, a binding surviving a filter was a binding of
the original map. -/
theorem lookupM_filter_nodup {κ α : Type} [DecidableEq κ]
    (m : List (κ × α)) (p : κ × α → Bool) (k : κ) (v : α)
    (hnd : (m.map Prod.fst).Nodup)
    (hl : lookupM (m.filter p) k = some v) :
    lookupM m k = some v := by
  induction m with
  | nil => simp [List.filter, lookupM] at hl
  | cons hd tl ih =>
    obtain ⟨k₀, v₀⟩ := hd
    simp only [List.map_cons, List.nodup_cons] at hnd
    by_cases h0 : k₀ = k
    · subst h0
      by_cases hph : p (k₀, v₀)
      · simp [List.filter, hph, lookupM] at hl ⊢
        exact hl
      · exfalso
        simp [List.filter, hph] at hl
        have hmem : (k₀, v) ∈ tl.filter p :=
          lookupM_mem (m := tl.filter p) (k := k₀) (v := v) hl
        have : k₀ ∈ tl.map Prod.fst :=
          List.mem_map_of_mem Prod.fst (List.mem_of_mem_filter hmem)
        exact hnd.1 (by simpa using this)
    · by_cases hph : p (k₀, v₀) <;>
        simp [List.filter, hph, lookupM, h0] at hl ⊢ <;>
        exact ih hnd.2 hl

/-! ## Data model (lib.rs types) -/

/-! String primitives, implemented by structural recursion on the character
list so that concrete evaluations reduce inside the kernel. -/

/-- The first list is a prefix of the second. -/
def leadsWith : List Char → List Char → Bool
  | [], _ => true
  | _ :: _, [] => false
  | a :: rest, b :: bs => a == b && leadsWith rest bs

/-- The needle occurs somewhere in the haystack. -/
def containsChars (haystack needle : List Char) : Bool :=
  match haystack with
  | [] => needle.isEmpty
  | _ :: rest => leadsWith needle haystack || containsChars rest needle

/-- Rust substring containment `haystack.contains(needle)`. -/
def containsSub (haystack needle : String) : Bool :=
  containsChars haystack.data needle.data

/-- Rust `s.starts_with(pre)`. -/
def startsWithRust (s pre : String) : Bool := leadsWith pre.data s.data

/-- Rust `s.ends_with(suf)`. -/
def endsWithRust (s suf : String) : Bool := leadsWith suf.data.reverse s.data.reverse

/-- Split a character list at every occurrence of `sep`, keeping empty
segments (the segment list always has one more element than the separator
count) — the behaviour of Rust `str::split(char)`. -/
def splitChar (sep : Char) : List Char → List (List Char)
  | [] => [[]]
  | c :: cs =>
    if c = sep then [] :: splitChar sep cs
    else
      match splitChar sep cs with
      | [] => [[c]]
      | p :: ps => (c :: p) :: ps

/-- Rust `s.split(sep).collect::<Vec<_>>()`. -/
def rustSplit (sep : Char) (s : String) : List String :=
  (splitChar sep s.data).map String.mk

/-- Rust `hay.replace(needle, repl)` for a non-empty needle. -/
def replaceChars (hay needle repl : List Char) : List Char :=
  match hay with
  | [] => []
  | c :: rest =>
    if needle.isEmpty then c :: rest
    else if leadsWith needle (c :: rest) then
      repl ++ replaceChars ((c :: rest).drop needle.length) needle repl
    else
      c :: replaceChars rest needle repl
termination_by hay.length
decreasing_by
  · rename_i hne _
    cases needle with
    | nil => simp [List.isEmpty] at hne
    | cons d ds =>
      simp only [List.length_drop, List.length_cons]
      omega
  · simp

/-- Rust `s.replace(needle, repl)`. -/
def replaceSub (s needle repl : String) : String :=
  String.mk (replaceChars s.data needle.data repl.data)

inductive AnalysisModel where
  | Haiku
  | Opus
deriving DecidableEq, Repr

/-- `AnalysisModel::to_model_id` (lib.rs lines 21-27). -/
def AnalysisModel.to_model_id : AnalysisModel → String
  | .Haiku => "claude-haiku-4-5"
  | .Opus => "claude-opus-4-5"

/-- `AnalysisModel::strength` (lib.rs lines 39-44): higher is stronger. -/
def AnalysisModel.strength : AnalysisModel → Nat
  | .Haiku => 1
  | .Opus => 2

/-- `AnalysisModel::from_model_id` (lib.rs lines 47-55): substring matching
on the stored model-id string. -/
def AnalysisModel.from_model_id (model_id : String) : Option AnalysisModel :=
  if containsSub model_id "opus" then some .Opus
  else if containsSub model_id "haiku" then some .Haiku
  else none

inductive SkillFileType where
  | SkillMd
  | Reference
  | Asset
  | Config
  | Other
deriving DecidableEq, Repr

structure SkillFile where
  path : String
  content : String
  checksum : String
  size_bytes : Nat
  file_type : SkillFileType
deriving DecidableEq, Repr

structure SkillFileVersion where
  path : String
  checksum : String
  size_bytes : Nat
  fetched_at : Nat
  fetched_by : Principal
  source_url : Option String
deriving DecidableEq, Repr

inductive RatingTopic where
  | Quality
  | Documentation
  | Maintainability
  | Completeness
  | Security
  | Malicious
  | Privacy
  | Usability
  | Compatibility
  | Performance
  | Trustworthiness
  | Maintenance
  | Community
deriving DecidableEq, Repr

structure TopicRating where
  topic : RatingTopic
  score : Nat
  confidence : Nat
  reasoning : String

inductive FlagType where
  | SecurityRisk
  | MaliciousPattern
  | PrivacyConcern
  | Unmaintained
  | Deprecated
  | ExcessivePermissions
  | UnverifiedSource
  | KnownVulnerability
deriving DecidableEq, Repr

inductive FlagSeverity where
  | Info
  | Warning
  | Critical
deriving DecidableEq, Repr

structure RatingFlag where
  flag_type : FlagType
  severity : FlagSeverity
  message : String

/-- `Ratings`; `overall` is an `f32`, modelled as `Float`. -/
structure Ratings where
  overall : Float
  topics : List TopicRating
  flags : List RatingFlag

structure McpDependency where
  name : String
  package : String
  required : Bool
  indexed : Bool
  verified : Bool
  ratings : Option Ratings

structure SoftwareDependency where
  name : String
  install_cmd : Option String
  url : Option String
  required : Bool
  ratings : Option Ratings

structure ReferencedFile where
  path : String
  context : String
  resolved : Bool

structure ReferencedUrl where
  url : String
  context : String
  fetched : Bool

structure SkillAnalysis where
  ratings : Ratings
  primary_category : String
  secondary_categories : List String
  tags : List String
  has_mcp : Bool
  provides_mcp : Bool
  required_mcps : List McpDependency
  software_deps : List SoftwareDependency
  has_references : Bool
  has_assets : Bool
  estimated_token_usage : Nat
  summary : String
  strengths : List String
  weaknesses : List String
  use_cases : List String
  compatibility_notes : String
  prerequisites : List String
  analyzed_at : Nat
  analyzed_by : Principal
  model_used : String
  analysis_version : String
  referenced_files : List ReferencedFile
  referenced_urls : List ReferencedUrl
  tee_worker_version : Option String
  prompt_version : Option String

structure Skill where
  id : String
  name : String
  description : String
  owner : String
  repo : String
  github_url : Option String
  skill_md_url : Option String
  skill_md_content : Option String
  files : List SkillFile
  files_checksum : Option String
  stars : Nat
  analysis : Option SkillAnalysis
  analysis_history : List SkillAnalysis
  file_history : List SkillFileVersion
  install_count : Nat
  created_at : Nat
  updated_at : Nat
  source : String

structure UserProfile where
  principal : Principal
  anthropic_api_key : Option String
  encrypted_anthropic_key : Option String
  analyses_performed : Nat
  created_at : Nat
  last_active : Nat

structure GlobalConfig where
  admins : List Principal
  skillsmp_api_key : String
  analysis_enabled : Bool
  default_prompt_id : Option String
  tee_worker_url : Option String
  worker_principals : List Principal

inductive JobStatus where
  | Pending
  | Processing
  | Completed
  | Failed
deriving DecidableEq, Repr

/-- The `{:?}` (Debug) rendering of a `JobStatus`. -/
def JobStatus.debugStr : JobStatus → String
  | .Pending => "Pending"
  | .Processing => "Processing"
  | .Completed => "Completed"
  | .Failed => "Failed"

structure AnalysisJob where
  id : String
  skill_id : String
  model : AnalysisModel
  encrypted_api_key : String
  requester : Principal
  status : JobStatus
  created_at : Nat
  updated_at : Nat
  error : Option String
deriving DecidableEq, Repr

structure PendingJobFile where
  path : String
  content : String
deriving DecidableEq, Repr

structure PendingJob where
  job_id : String
  skill_id : String
  skill_name : String
  skill_description : String
  skill_owner : String
  skill_repo : String
  skill_md_content : Option String
  skill_files : List PendingJobFile
  model : String
  encrypted_api_key : String
deriving DecidableEq, Repr

inductive EnrichmentJobStatus where
  | Pending
  | Processing
  | Completed
  | Failed
  | NotFound
deriving DecidableEq, Repr

/-- The `{:?}` (Debug) rendering of an `EnrichmentJobStatus`. -/
def EnrichmentJobStatus.debugStr : EnrichmentJobStatus → String
  | .Pending => "Pending"
  | .Processing => "Processing"
  | .Completed => "Completed"
  | .Failed => "Failed"
  | .NotFound => "NotFound"

structure EnrichmentJob where
  id : String
  skill_id : String
  owner : String
  repo : String
  name : String
  status : EnrichmentJobStatus
  auto_analyze : Bool
  requester : Principal
  created_at : Nat
  updated_at : Nat
  error : Option String
  content_found : Option String
  source_url : Option String
deriving DecidableEq, Repr

structure PendingEnrichmentJob where
  job_id : String
  skill_id : String
  owner : String
  repo : String
  name : String
  auto_analyze : Bool
deriving DecidableEq, Repr

structure EnrichmentFile where
  path : String
  content : String
deriving DecidableEq, Repr

structure EnrichmentResult where
  found : Bool
  content : Option String
  source_url : Option String
  files_found : List EnrichmentFile
deriving DecidableEq, Repr

/-! ## Constants (lib.rs lines 893-914) -/

def MAX_SKILL_CONTENT_BYTES : Nat := 200000

def MAX_SKILL_FILE_BYTES : Nat := 500000

def MAX_ANALYSIS_HISTORY : Nat := 20

def JOB_CLEANUP_AGE_NS : Nat := 24 * 60 * 60 * 1000000000

def MAX_JOBS_RETAINED : Nat := 10000

def RATE_LIMIT_WINDOW_NS : Nat := 60 * 60 * 1000000000

def MAX_INSTALLS_PER_WINDOW : Nat := 5

/-- Wrap of `u64` arithmetic in a release build. -/
def wrap64 (x : Nat) : Nat := x % (2 ^ 64)


/-! ## Content sanitization (lib.rs lines 916-961) -/

/-- Rust `char::is_whitespace` (the Unicode White_Space property). -/
def rustIsWhitespace (c : Char) : Bool :=
  c = ' ' || c = '\t' || c = '\n' || c = Char.ofNat 0x0B || c = Char.ofNat 0x0C ||
  c = '\r' || c = Char.ofNat 0x85 || c = Char.ofNat 0xA0 || c = Char.ofNat 0x1680 ||
  (0x2000 ≤ c.toNat && c.toNat ≤ 0x200A) || c = Char.ofNat 0x2028 ||
  c = Char.ofNat 0x2029 || c = Char.ofNat 0x202F || c = Char.ofNat 0x205F ||
  c = Char.ofNat 0x3000

/-- `content.replace('\0', "")`: strip all NUL characters. -/
def stripNul (s : List Char) : List Char := s.filter (fun c => c ≠ '\x00')

/-- Split a character list at every newline, keeping empty segments
(the segment list always has one more element than the newline count). -/
def splitNl (s : List Char) : List (List Char) := splitChar '\n' s

/-- Drop a single trailing carriage return (the segment came from `"\r\n"`). -/
def stripCr (l : List Char) : List Char :=
  match l.getLast? with
  | some c => if c = '\r' then l.dropLast else l
  | none => l

/-- Rust `str::lines()`: split on `'\n'`, drop the final empty segment when
the text ends with a newline, and strip the `'\r'` of every
newline-terminated segment. -/
def rustLines (s : List Char) : List (List Char) :=
  let ps := splitNl s
  match ps.getLast? with
  | some [] => ps.dropLast.map stripCr
  | some lst => ps.dropLast.map stripCr ++ [lst]
  | none => []

/-- `line.trim().is_empty()`: the line consists of whitespace only. -/
def isBlankLine (l : List Char) : Bool := l.all rustIsWhitespace

/-- The output-building loop of `sanitize_skill_content` (lib.rs lines
929-942): carries `blank_count`, emits a bare newline for each of the first
two blank lines of a run, and the line plus a newline for non-blank lines. -/
def renderLines : Nat → List (List Char) → List Char
  | _, [] => []
  | blanks, l :: ls =>
    if isBlankLine l then
      if blanks + 1 ≤ 2 then '\n' :: renderLines (blanks + 1) ls
      else renderLines (blanks + 1) ls
    else l ++ '\n' :: renderLines 0 ls

/-- `sanitize_skill_content` (lib.rs lines 918-944). -/
def sanitize_skill_content (content : String) : Except String String :=
  if content.utf8ByteSize > MAX_SKILL_CONTENT_BYTES then
    .error ("Content too large: " ++ toString content.utf8ByteSize ++
      " bytes (max " ++ toString MAX_SKILL_CONTENT_BYTES ++ ")")
  else
    .ok (String.mk (renderLines 0 (rustLines (stripNul content.data))))

/-- `sanitize_skill_file` (lib.rs lines 947-961). -/
def sanitize_skill_file (file : SkillFile) : Except String Unit :=
  if file.content.utf8ByteSize > MAX_SKILL_FILE_BYTES then
    .error ("File '" ++ file.path ++ "' too large: " ++
      toString file.content.utf8ByteSize ++ " bytes (max " ++
      toString MAX_SKILL_FILE_BYTES ++ ")")
  else if containsSub file.path ".." || startsWithRust file.path "/" ||
      startsWithRust file.path "\\" then
    .error ("Invalid file path: " ++ file.path)
  else
    .ok ()

/-! ## Specification-level view of blank-line collapsing (for claim C8)

`renderOut` renders a line list back to text (each line followed by a
newline); `collapseRuns` is the run-based description: every maximal run of
`k` blank lines becomes `min k 2` empty lines, non-blank lines are kept. -/

def renderOut : List (List Char) → List Char
  | [] => []
  | l :: ls => l ++ '\n' :: renderOut ls

theorem dropWhile_length_le {α : Type} (p : α → Bool) (l : List α) :
    (l.dropWhile p).length ≤ l.length := by
  induction l with
  | nil => simp [List.dropWhile]
  | cons a l ih =>
    by_cases h : p a
    · simp [List.dropWhile, h]
      omega
    · simp [List.dropWhile, h]

def collapseRuns : List (List Char) → List (List Char)
  | [] => []
  | l :: ls =>
    if isBlankLine l then
      List.replicate (min (1 + (ls.takeWhile isBlankLine).length) 2) [] ++
        collapseRuns (ls.dropWhile isBlankLine)
    else l :: collapseRuns ls
termination_by l => l.length
decreasing_by
  all_goals
    simp only [List.length_cons]
    first
      | exact Nat.lt_succ_of_le (dropWhile_length_le _ _)
      | omega

/-- Line-level mirror of `renderLines`: the list of output lines the
sanitizer loop emits (each will be followed by one newline). -/
def emittedLines : Nat → List (List Char) → List (List Char)
  | _, [] => []
  | blanks, l :: ls =>
    if isBlankLine l then
      if blanks + 1 ≤ 2 then [] :: emittedLines (blanks + 1) ls
      else emittedLines (blanks + 1) ls
    else l :: emittedLines 0 ls

theorem renderLines_eq_renderOut (ls : List (List Char)) :
    ∀ b, renderLines b ls = renderOut (emittedLines b ls) := by
  induction ls with
  | nil => intro b; rfl
  | cons l ls ih =>
    intro b
    by_cases hb : isBlankLine l
    · by_cases h2 : b + 1 ≤ 2
      · simp [renderLines, emittedLines, hb, h2, renderOut, ih]
      · simp [renderLines, emittedLines, hb, h2, ih]
    · simp [renderLines, emittedLines, hb, renderOut, ih]

theorem emittedLines_run (rest : List (List Char)) :
    ∀ (bs : List (List Char)) (c : Nat), (∀ b ∈ bs, isBlankLine b = true) →
    emittedLines c (bs ++ rest) =
      List.replicate (min (c + bs.length) 2 - c) [] ++
        emittedLines (c + bs.length) rest := by
  intro bs
  induction bs with
  | nil =>
    intro c _
    have h0 : min (c + 0) 2 - c = 0 := by omega
    simp only [List.nil_append, List.length_nil, h0]
    simp
  | cons b bs ih =>
    intro c hall
    have hb : isBlankLine b = true := hall b (by simp)
    have hall2 : ∀ x ∈ bs, isBlankLine x = true := fun x hx => hall x (by simp [hx])
    by_cases h2 : c + 1 ≤ 2
    · have hcount : min (c + (b :: bs).length) 2 - c =
          (min (c + 1 + bs.length) 2 - (c + 1)) + 1 := by
        simp only [List.length_cons]
        omega
      have harg : c + (b :: bs).length = c + 1 + bs.length := by
        simp only [List.length_cons]
        omega
      rw [hcount, harg]
      simp only [List.cons_append, emittedLines, hb, if_true, if_pos h2,
        List.append_eq]
      rw [ih (c + 1) hall2]
      simp [List.replicate_succ]
    · have hcount : min (c + (b :: bs).length) 2 - c =
          min (c + 1 + bs.length) 2 - (c + 1) := by
        simp only [List.length_cons]
        omega
      have harg : c + (b :: bs).length = c + 1 + bs.length := by
        simp only [List.length_cons]
        omega
      rw [hcount, harg]
      simp only [List.cons_append, emittedLines, hb, if_true, if_neg h2,
        List.append_eq]
      rw [ih (c + 1) hall2]

theorem dropWhile_head_not_blank :
    ∀ (ls : List (List Char)) (r : List Char) (t : List (List Char)),
    ls.dropWhile isBlankLine = r :: t → isBlankLine r = false := by
  intro ls
  induction ls with
  | nil => intro r t h; simp [List.dropWhile] at h
  | cons a as ih =>
    intro r t h
    by_cases hb : isBlankLine a
    · simp only [List.dropWhile, hb] at h
      exact ih r t h
    · simp only [List.dropWhile, Bool.not_eq_true] at hb
      rw [List.dropWhile] at h
      rw [hb] at h
      simp only [List.cons.injEq] at h
      rw [← h.1]
      exact hb

theorem collapseRuns_nil : collapseRuns [] = [] := by
  rw [collapseRuns]

theorem collapseRuns_cons_blank (l : List Char) (ls : List (List Char))
    (hb : isBlankLine l = true) :
    collapseRuns (l :: ls) =
      List.replicate (min (1 + (ls.takeWhile isBlankLine).length) 2) [] ++
        collapseRuns (ls.dropWhile isBlankLine) := by
  conv_lhs => rw [collapseRuns]
  rw [if_pos hb]

theorem collapseRuns_cons_nonblank (l : List Char) (ls : List (List Char))
    (hb : isBlankLine l = false) :
    collapseRuns (l :: ls) = l :: collapseRuns ls := by
  conv_lhs => rw [collapseRuns]
  rw [if_neg (by simp [hb])]

theorem emittedLines_zero_eq_collapseRuns :
    ∀ (n : Nat) (ls : List (List Char)), ls.length ≤ n →
    emittedLines 0 ls = collapseRuns ls := by
  intro n
  induction n with
  | zero =>
    intro ls h
    have h0 : ls = [] := List.length_eq_zero.mp (Nat.le_zero.mp h)
    subst h0
    rw [collapseRuns_nil]
    rfl
  | succ n ih =>
    intro ls h
    cases ls with
    | nil =>
      rw [collapseRuns_nil]
      rfl
    | cons l ls =>
      by_cases hb : isBlankLine l
      · have hsplit : l :: ls =
            (l :: ls.takeWhile isBlankLine) ++ ls.dropWhile isBlankLine := by
          simp [List.takeWhile_append_dropWhile]
        have hall : ∀ b ∈ l :: ls.takeWhile isBlankLine, isBlankLine b = true := by
          intro b hbm
          rcases List.mem_cons.mp hbm with h1 | h1
          · rw [h1]; exact hb
          · exact List.mem_takeWhile_imp h1
        have hrun := emittedLines_run (ls.dropWhile isBlankLine)
          (l :: ls.takeWhile isBlankLine) 0 hall
        have htail : emittedLines (0 + (l :: ls.takeWhile isBlankLine).length)
            (ls.dropWhile isBlankLine) = collapseRuns (ls.dropWhile isBlankLine) := by
          cases hdw : ls.dropWhile isBlankLine with
          | nil =>
            rw [collapseRuns_nil]
            rfl
          | cons r t =>
            have hr : isBlankLine r = false := dropWhile_head_not_blank ls r t hdw
            have ht : t.length ≤ n := by
              have h1 : (ls.dropWhile isBlankLine).length ≤ ls.length :=
                dropWhile_length_le _ _
              rw [hdw] at h1
              simp only [List.length_cons] at h h1
              omega
            rw [collapseRuns_cons_nonblank r t hr]
            simp [emittedLines, hr, ih t ht]
        have hcount : min (0 + (l :: ls.takeWhile isBlankLine).length) 2 - 0 =
            min (1 + (ls.takeWhile isBlankLine).length) 2 := by
          simp only [List.length_cons]
          omega
        rw [collapseRuns_cons_blank l ls hb]
        conv_lhs => rw [hsplit]
        rw [hrun, htail, hcount]
      · simp only [Bool.not_eq_true] at hb
        rw [collapseRuns_cons_nonblank l ls hb]
        have hls : ls.length ≤ n := by
          simp only [List.length_cons] at h
          omega
        simp [emittedLines, hb, ih ls hls]

/-! ## Content digest (lib.rs lines 2824-2844)

`compute_sha256` is, despite its name, Rust's `DefaultHasher`
(SipHash-1-3 with zero keys) over the UTF-8 bytes of the string followed by
the `0xff` terminator byte written by `Hash for str`, rendered as 16
lowercase hex digits (`{:016x}`). -/

structure SipState where
  v0 : Nat
  v1 : Nat
  v2 : Nat
  v3 : Nat

/-- 64-bit left rotation. -/
def rotl64 (x n : Nat) : Nat := ((x <<< n) % (2 ^ 64)) ||| (x >>> (64 - n))

/-- One SipHash round. -/
def sipRound (s : SipState) : SipState :=
  let v0 := wrap64 (s.v0 + s.v1)
  let v1 := rotl64 s.v1 13
  let v1 := v1 ^^^ v0
  let v0 := rotl64 v0 32
  let v2 := wrap64 (s.v2 + s.v3)
  let v3 := rotl64 s.v3 16
  let v3 := v3 ^^^ v2
  let v0 := wrap64 (v0 + v3)
  let v3 := rotl64 v3 21
  let v3 := v3 ^^^ v0
  let v2 := wrap64 (v2 + v1)
  let v1 := rotl64 v1 17
  let v1 := v1 ^^^ v2
  let v2 := rotl64 v2 32
  ⟨v0, v1, v2, v3⟩

/-- Absorb one message word (SipHash-1-3: one round per word). -/
def sipCompress (s : SipState) (m : Nat) : SipState :=
  let s := { s with v3 := s.v3 ^^^ m }
  let s := sipRound s
  { s with v0 := s.v0 ^^^ m }

/-- Little-endian word value of a byte list. -/
def leWord : List Nat → Nat
  | [] => 0
  | b :: bs => b + 256 * leWord bs

/-- Absorb all full 8-byte blocks; return the state and the remaining tail. -/
def sipBlocks (s : SipState) (bs : List Nat) : SipState × List Nat :=
  if _h : 8 ≤ bs.length then
    sipBlocks (sipCompress s (leWord (bs.take 8))) (bs.drop 8)
  else
    (s, bs)
termination_by bs.length
decreasing_by
  simp only [List.length_drop]
  omega

/-- SipHash-1-3 with keys `(0, 0)` over a byte list (Rust `DefaultHasher`). -/
def sipHash13Bytes (bytes : List Nat) : Nat :=
  let s0 : SipState :=
    ⟨0x736f6d6570736575, 0x646f72616e646f6d, 0x6c7967656e657261, 0x7465646279746573⟩
  let sb := sipBlocks s0 bytes
  let b := ((bytes.length % 256) <<< 56) ||| leWord sb.2
  let s := sipCompress sb.1 b
  let s : SipState := { s with v2 := s.v2 ^^^ 0xff }
  let s := sipRound (sipRound (sipRound s))
  s.v0 ^^^ s.v1 ^^^ s.v2 ^^^ s.v3

/-- One lowercase hex digit. -/
def hexChar (n : Nat) : Char :=
  if n < 10 then Char.ofNat (48 + n) else Char.ofNat (87 + n)

/-- `format!("{:016x}", x)` for `x < 2^64`. -/
def toHex16 (x : Nat) : String :=
  String.mk ((List.range 16).map (fun i => hexChar ((x >>> (4 * (15 - i))) % 16)))

/-- `compute_sha256` (lib.rs lines 2827-2835): `DefaultHasher` over the
string (UTF-8 bytes plus the `0xff` byte written by `Hash for str`). -/
def compute_sha256 (content : String) : String :=
  toHex16 (sipHash13Bytes (content.toUTF8.toList.map (fun b => b.toNat) ++ [0xff]))

/-- Stable insertion of a string into a sorted list (`Vec::sort` order on
strings is bytewise, which agrees with code-point order). -/
def insSorted (a : String) : List String → List String
  | [] => [a]
  | b :: bs => if a ≤ b then a :: b :: bs else b :: insSorted a bs

/-- Insertion sort on strings. -/
def insSortStr : List String → List String
  | [] => []
  | a :: rest => insSorted a (insSortStr rest)

/-- `compute_combined_checksum` (lib.rs lines 2838-2844): digest of the
sorted `path:checksum` pairs joined with newlines. -/
def compute_combined_checksum (files : List SkillFile) : String :=
  compute_sha256 (String.intercalate "\n"
    (insSortStr (files.map (fun f => f.path ++ ":" ++ f.checksum))))

/-! ## Canister state (lib.rs lines 571-589)

The `PROMPTS` store is omitted: no operation modelled here reads or writes
it. -/

structure CanisterState where
  skills : List (String × Skill)
  users : List (Principal × UserProfile)
  jobs : List (String × AnalysisJob)
  job_counter : Nat
  enrichment_jobs : List (String × EnrichmentJob)
  enrichment_job_counter : Nat
  install_rate_limits : List ((Principal × String) × (Nat × Nat))
  config : GlobalConfig

/-! ## Role helpers (lib.rs lines 871-887) -/

def is_admin (st : CanisterState) (caller : Principal) : Bool :=
  st.config.admins.contains caller

def is_authenticated (caller : Principal) : Bool :=
  caller ≠ Principal.anonymous

def is_worker (st : CanisterState) (caller : Principal) : Bool :=
  st.config.worker_principals.contains caller

def is_admin_or_worker (st : CanisterState) (caller : Principal) : Bool :=
  is_admin st caller || is_worker st caller

/-- The thread-local initial values of the stores (lib.rs lines 571-589). -/
def emptyState : CanisterState :=
  { skills := []
    users := []
    jobs := []
    job_counter := 0
    enrichment_jobs := []
    enrichment_job_counter := 0
    install_rate_limits := []
    config :=
      { admins := []
        skillsmp_api_key := ""
        analysis_enabled := true
        default_prompt_id := none
        tee_worker_url := none
        worker_principals := [] } }

/-- `init` (lib.rs lines 595-623); the default-prompt insertion concerns the
omitted `PROMPTS` store, so only its `default_prompt_id` effect appears. -/
def canister_init (caller : Principal) : CanisterState :=
  { emptyState with
    config :=
      { emptyState.config with
        admins := emptyState.config.admins ++ [caller]
        skillsmp_api_key := "sk_live_skillsmp_V7jAuP4vvpXYREfo_bkDH2U6dhfM8Y20LqQoHT-5SP8"
        tee_worker_url := none
        worker_principals := []
        default_prompt_id := some "default-v1" } }

/-! ## Worker payload and `parse_analysis_json` (lib.rs lines 3046-3225) -/

structure RawTopicRating where
  topic : String
  score : Nat
  confidence : Nat
  reasoning : String

structure RawFlag where
  flag_type : String
  severity : String
  message : String

structure RawRatings where
  overall : Float
  topics : List RawTopicRating
  flags : List RawFlag

structure RawMcpDep where
  name : String
  package : String
  required : Bool
  ratings : Option RawRatings

structure RawSoftwareDep where
  name : String
  install_cmd : Option String
  url : Option String
  required : Bool
  ratings : Option RawRatings

structure RawAnalysis where
  ratings : RawRatings
  primary_category : String
  secondary_categories : List String
  tags : List String
  has_mcp : Bool
  provides_mcp : Bool
  required_mcps : List RawMcpDep
  software_deps : List RawSoftwareDep
  has_references : Bool
  has_assets : Bool
  estimated_token_usage : Nat
  summary : String
  strengths : List String
  weaknesses : List String
  use_cases : List String
  compatibility_notes : String
  prerequisites : List String

/-- Outcome of the serde deserialization of the worker's payload string into
the `RawAnalysis` shape.  The JSON grammar (and the first-brace/last-brace
substring extraction that precedes it) is not modelled; `malformed` carries
serde's error message. -/
inductive WorkerJson where
  | malformed (msg : String)
  | parsed (raw : RawAnalysis)

/-- `parse_topic` (lib.rs lines 3124-3141): case-insensitive, defaulting to
`Quality`. -/
def parse_topic (s : String) : RatingTopic :=
  match s.toLower with
  | "quality" => .Quality
  | "documentation" => .Documentation
  | "maintainability" => .Maintainability
  | "completeness" => .Completeness
  | "security" => .Security
  | "malicious" => .Malicious
  | "privacy" => .Privacy
  | "usability" => .Usability
  | "compatibility" => .Compatibility
  | "performance" => .Performance
  | "trustworthiness" => .Trustworthiness
  | "maintenance" => .Maintenance
  | "community" => .Community
  | _ => .Quality

/-- `parse_flag_type` (lib.rs lines 3143-3155): case-sensitive, defaulting
to `UnverifiedSource`. -/
def parse_flag_type (s : String) : FlagType :=
  match s with
  | "SecurityRisk" => .SecurityRisk
  | "MaliciousPattern" => .MaliciousPattern
  | "PrivacyConcern" => .PrivacyConcern
  | "Unmaintained" => .Unmaintained
  | "Deprecated" => .Deprecated
  | "ExcessivePermissions" => .ExcessivePermissions
  | "UnverifiedSource" => .UnverifiedSource
  | "KnownVulnerability" => .KnownVulnerability
  | _ => .UnverifiedSource

/-- `parse_severity` (lib.rs lines 3157-3163): defaulting to `Info`. -/
def parse_severity (s : String) : FlagSeverity :=
  match s with
  | "Critical" => .Critical
  | "Warning" => .Warning
  | _ => .Info

/-- Rust `f32::clamp` (NaN propagates, as in Rust). -/
def clampF32 (x lo hi : Float) : Float :=
  if x < lo then lo else if x > hi then hi else x

/-- `convert_ratings` (lib.rs lines 3165-3180). -/
def convert_ratings (raw : RawRatings) : Ratings :=
  { overall := clampF32 raw.overall 0.0 5.0
    topics := raw.topics.map (fun t =>
      { topic := parse_topic t.topic
        score := min t.score 100
        confidence := min t.confidence 100
        reasoning := t.reasoning })
    flags := raw.flags.map (fun f =>
      { flag_type := parse_flag_type f.flag_type
        severity := parse_severity f.severity
        message := f.message }) }

/-- The `SkillAnalysis` assembled from a deserialized payload (lib.rs lines
3185-3224): note `analyzed_by` is `ic_cdk::caller()`, i.e. the principal
calling the submit endpoint. -/
def analysisOfRaw (raw : RawAnalysis) (caller : Principal) (now : Nat)
    (model : AnalysisModel) : SkillAnalysis :=
  { ratings := convert_ratings raw.ratings
    primary_category := raw.primary_category
    secondary_categories := raw.secondary_categories
    tags := raw.tags
    has_mcp := raw.has_mcp
    provides_mcp := raw.provides_mcp
    required_mcps := raw.required_mcps.map (fun m =>
      { name := m.name
        package := m.package
        required := m.required
        indexed := false
        verified := false
        ratings := m.ratings.map convert_ratings })
    software_deps := raw.software_deps.map (fun s =>
      { name := s.name
        install_cmd := s.install_cmd
        url := s.url
        required := s.required
        ratings := s.ratings.map convert_ratings })
    has_references := raw.has_references
    has_assets := raw.has_assets
    estimated_token_usage := raw.estimated_token_usage
    summary := raw.summary
    strengths := raw.strengths
    weaknesses := raw.weaknesses
    use_cases := raw.use_cases
    compatibility_notes := raw.compatibility_notes
    prerequisites := raw.prerequisites
    referenced_files := []
    referenced_urls := []
    analyzed_at := now
    analyzed_by := caller
    model_used := model.to_model_id
    analysis_version := "2.2.0"
    tee_worker_version := none
    prompt_version := none }

/-- `parse_analysis_json` (lib.rs lines 3046-3225) at the parse-outcome
level of the payload. -/
def parse_analysis_json (payload : WorkerJson) (caller : Principal) (now : Nat)
    (model : AnalysisModel) : Except String SkillAnalysis :=
  match payload with
  | .malformed msg => .error ("JSON parse error: " ++ msg)
  | .parsed raw => .ok (analysisOfRaw raw caller now model)

/-! ## Retention sweep (lib.rs lines 1476-1554) -/

/-- Terminal statuses of an analysis job. -/
def analysisTerminal (j : AnalysisJob) : Bool :=
  j.status == .Completed || j.status == .Failed

/-- Terminal statuses of an enrichment job. -/
def enrichmentTerminal (j : EnrichmentJob) : Bool :=
  j.status == .Completed || j.status == .Failed || j.status == .NotFound

/-- Stable insertion sort by the stored `updated_at` key (mirrors the stable
`sort_by_key` over the collected `(id, updated_at)` pairs). -/
def insSortedKey (a : String × Nat) : List (String × Nat) → List (String × Nat)
  | [] => [a]
  | b :: bs => if a.2 ≤ b.2 then a :: b :: bs else b :: insSortedKey a bs

def insSortKey : List (String × Nat) → List (String × Nat)
  | [] => []
  | a :: rest => insSortedKey a (insSortKey rest)

/-- The retain predicate of the age sweep: terminal jobs survive only when
`updated_at > cutoff`; non-terminal jobs always survive. -/
def retainJob {α : Type} (isTerminal : α → Bool) (updatedAt : α → Nat)
    (cutoff : Nat) (p : String × α) : Bool :=
  if isTerminal p.2 then decide (cutoff < updatedAt p.2) else true

/-- One queue pass of `cleanup_old_jobs`: drop terminal jobs at or past the
age cutoff, then, if still above `MAX_JOBS_RETAINED`, drop the oldest
terminal jobs until within the limit.  Both queues instantiate this with
their own terminal-status predicate. -/
def cleanupQueue {α : Type} (isTerminal : α → Bool) (updatedAt : α → Nat)
    (cutoff : Nat) (jobs : List (String × α)) : List (String × α) :=
  let jobs1 := jobs.filter (retainJob isTerminal updatedAt cutoff)
  if jobs1.length > MAX_JOBS_RETAINED then
    let completed := (jobs1.filter (fun p => isTerminal p.2)).map
      (fun p => (p.1, updatedAt p.2))
    let sorted := insSortKey completed
    let to_remove := jobs1.length - MAX_JOBS_RETAINED
    let ids := (sorted.take to_remove).map (fun p => p.1)
    jobs1.filter (fun p => ! ids.contains p.1)
  else
    jobs1

/-- `cleanup_old_jobs` (lib.rs lines 1476-1554). -/
def cleanup_old_jobs (st : CanisterState) (now : Nat) : CanisterState :=
  let cutoff := now - JOB_CLEANUP_AGE_NS
  { st with
    jobs := cleanupQueue analysisTerminal (fun j => j.updated_at) cutoff st.jobs
    enrichment_jobs :=
      cleanupQueue enrichmentTerminal (fun j => j.updated_at) cutoff st.enrichment_jobs
    install_rate_limits :=
      st.install_rate_limits.filter (fun p => decide (cutoff < p.2.2)) }

/-! ## Analysis job queue (lib.rs lines 1126-1414) -/

/-- `request_analysis` (lib.rs lines 1127-1184). -/
def request_analysis (st : CanisterState) (caller : Principal) (now : Nat)
    (skill_id : String) (model : AnalysisModel) : Except String String × CanisterState :=
  if ¬ is_authenticated caller then (.error "Must be authenticated", st)
  else if ¬ st.config.analysis_enabled then (.error "Analysis is disabled", st)
  else
    match (lookupM st.users caller).bind (fun u => u.encrypted_anthropic_key) with
    | none => (.error "No encrypted API key set. Save your API key first.", st)
    | some encrypted_key =>
      match lookupM st.skills skill_id with
      | none => (.error "Skill not found", st)
      | some skill =>
        let model_id := model.to_model_id
        if skill.analysis_history.any (fun a => a.model_used == model_id) then
          (.error ("This skill has already been analyzed by " ++
            ((rustSplit '-' (replaceSub model_id "claude-" "")).headD "this model") ++
            ". Try a different model."), st)
        else
          let counter := wrap64 (st.job_counter + 1)
          let job_id := "job-" ++ toString counter
          let job : AnalysisJob :=
            { id := job_id
              skill_id := skill_id
              model := model
              encrypted_api_key := encrypted_key
              requester := caller
              status := .Pending
              created_at := now
              updated_at := now
              error := none }
          (.ok job_id,
            { st with job_counter := counter, jobs := insertM st.jobs job_id job })

/-- The claim loop of `claim_pending_jobs` (lib.rs lines 1220-1259). -/
def claimLoop (skills : List (String × Skill)) (now : Nat) :
    List String → List (String × AnalysisJob) → List PendingJob →
      List PendingJob × List (String × AnalysisJob)
  | [], jobs, acc => (acc, jobs)
  | id :: rest, jobs, acc =>
    match lookupM jobs id with
    | none => claimLoop skills now rest jobs acc
    | some job =>
      match lookupM skills job.skill_id with
      | some skill =>
        let pj : PendingJob :=
          { job_id := job.id
            skill_id := job.skill_id
            skill_name := skill.name
            skill_description := skill.description
            skill_owner := skill.owner
            skill_repo := skill.repo
            skill_md_content := some (skill.skill_md_content.getD
              ("# " ++ skill.name ++ "\n\n" ++ skill.description))
            skill_files := skill.files.map (fun f =>
              { path := f.path, content := f.content })
            model := job.model.to_model_id
            encrypted_api_key := job.encrypted_api_key }
        claimLoop skills now rest
          (updateM jobs id (fun j => { j with status := .Processing, updated_at := now }))
          (acc ++ [pj])
      | none =>
        claimLoop skills now rest
          (updateM jobs id (fun j =>
            { j with status := .Failed, error := some "Skill not found", updated_at := now }))
          acc

/-- `claim_pending_jobs` (lib.rs lines 1200-1263). -/
def claim_pending_jobs (st : CanisterState) (caller : Principal) (now : Nat)
    (limit : Nat) : Except String (List PendingJob) × CanisterState :=
  if ¬ is_admin_or_worker st caller then (.error "Worker or admin role required", st)
  else
    let limit := min limit 10
    let pending_ids := ((st.jobs.filter (fun p => p.2.status == .Pending)).take limit).map
      (fun p => p.1)
    let r := claimLoop st.skills now pending_ids st.jobs []
    (.ok r.1, { st with jobs := r.2 })

/-- The per-skill mutation performed on a successful result submission
(lib.rs lines 1293-1315): prepend to history, cap at 20, and promote the
new analysis iff its model strength is at least the strength parsed from
the displayed analysis. -/
def analysisSkillUpdate (analysis : SkillAnalysis) (model : AnalysisModel)
    (now : Nat) (sk : Skill) : Skill :=
  let hist := analysis :: sk.analysis_history
  let hist := if hist.length > MAX_ANALYSIS_HISTORY then hist.take MAX_ANALYSIS_HISTORY else hist
  let new_model_strength := model.strength
  let current_strength :=
    ((sk.analysis.bind (fun a => AnalysisModel.from_model_id a.model_used)).map
      AnalysisModel.strength).getD 0
  { sk with
    analysis_history := hist
    analysis := if new_model_strength ≥ current_strength then some analysis else sk.analysis
    updated_at := now }

/-- `submit_job_result` (lib.rs lines 1268-1332 and the cleanup call at
line 1412 of the shared tail); note the parsed analysis is stored with the
`analyzed_by` produced by `parse_analysis_json` (the submitting caller) —
this endpoint performs no override. -/
def submit_job_result (st : CanisterState) (caller : Principal) (now : Nat)
    (job_id : String) (payload : WorkerJson) : Except String Unit × CanisterState :=
  if ¬ is_admin_or_worker st caller then (.error "Worker or admin role required", st)
  else
    match lookupM st.jobs job_id with
    | none => (.error "Job not found", st)
    | some job =>
      if job.status ≠ .Processing then
        (.error ("Job is not in Processing state (currently: " ++
          job.status.debugStr ++ ")"), st)
      else
        match parse_analysis_json payload caller now job.model with
        | .error e => (.error ("Failed to parse analysis: " ++ e), st)
        | .ok analysis =>
          let st1 := { st with
            skills := updateM st.skills job.skill_id (analysisSkillUpdate analysis job.model now) }
          let st2 := { st1 with
            users := updateM st1.users job.requester (fun u =>
              { u with analyses_performed := wrap64 (u.analyses_performed + 1),
                       last_active := now }) }
          let st3 := { st2 with
            jobs := updateM st2.jobs job_id (fun j =>
              { j with status := .Completed, updated_at := now, error := none }) }
          (.ok (), cleanup_old_jobs st3 now)

/-- `submit_job_result_with_metadata` (lib.rs lines 1337-1414): attaches the
TEE metadata and overrides `analyzed_by` with the job's requester before
storing. -/
def submit_job_result_with_metadata (st : CanisterState) (caller : Principal) (now : Nat)
    (job_id : String) (payload : WorkerJson) (tee_worker_version prompt_version : String) :
    Except String Unit × CanisterState :=
  if ¬ is_admin_or_worker st caller then (.error "Worker or admin role required", st)
  else
    match lookupM st.jobs job_id with
    | none => (.error "Job not found", st)
    | some job =>
      if job.status ≠ .Processing then
        (.error ("Job is not in Processing state (currently: " ++
          job.status.debugStr ++ ")"), st)
      else
        match parse_analysis_json payload caller now job.model with
        | .error e => (.error ("Failed to parse analysis: " ++ e), st)
        | .ok analysis0 =>
          let analysis := { analysis0 with
            tee_worker_version :=
              if tee_worker_version = "" then none else some tee_worker_version
            prompt_version :=
              if prompt_version = "" then none else some prompt_version
            analyzed_by := job.requester }
          let st1 := { st with
            skills := updateM st.skills job.skill_id (analysisSkillUpdate analysis job.model now) }
          let st2 := { st1 with
            users := updateM st1.users job.requester (fun u =>
              { u with analyses_performed := wrap64 (u.analyses_performed + 1),
                       last_active := now }) }
          let st3 := { st2 with
            jobs := updateM st2.jobs job_id (fun j =>
              { j with status := .Completed, updated_at := now, error := none }) }
          (.ok (), cleanup_old_jobs st3 now)

/-! ## Enrichment result submission (lib.rs lines 1756-1908) -/

/-- The SKILL.md part of the per-skill mutation of
`submit_enrichment_result` (lib.rs lines 1790-1809): record the SKILL.md
version, cap the history, store the sanitized content. -/
def enrichBase (sanitized : String) (requester : Principal) (now : Nat)
    (src : Option String) (sk : Skill) : Skill :=
  let skill_md_checksum := compute_sha256 sanitized
  let fh := ({ path := "SKILL.md"
               checksum := skill_md_checksum
               size_bytes := sanitized.utf8ByteSize
               fetched_at := now
               fetched_by := requester
               source_url := src } : SkillFileVersion) :: sk.file_history
  let fh := if fh.length > 50 then fh.take 50 else fh
  { sk with
    file_history := fh
    skill_md_content := some sanitized
    updated_at := now }

/-- The `files_found` part of the mutation (lib.rs lines 1812-1858),
executed only when `files_found` is non-empty: install each discovered
file that passes sanitization, recompute the combined checksum, re-cap the
file history. -/
def enrichApplyFiles (requester : Principal) (now : Nat) (src : Option String)
    (files_found : List EnrichmentFile) (sk : Skill) : Skill :=
  let sk := files_found.foldl (fun sk ef =>
    match sanitize_skill_file
        { path := ef.path
          content := ef.content
          checksum := ""
          size_bytes := ef.content.utf8ByteSize
          file_type := .Other } with
    | .ok _ =>
      let file_checksum := compute_sha256 ef.content
      let sk := { sk with
        file_history := ({ path := ef.path
                           checksum := file_checksum
                           size_bytes := ef.content.utf8ByteSize
                           fetched_at := now
                           fetched_by := requester
                           source_url := src } : SkillFileVersion) :: sk.file_history }
      { sk with
        files := (sk.files.filter (fun f => f.path != ef.path)) ++
          [{ path := ef.path
             content := ef.content
             checksum := file_checksum
             size_bytes := ef.content.utf8ByteSize
             file_type :=
               if endsWithRust ef.path "SKILL.md" || endsWithRust ef.path "skill.md" then
                 .SkillMd
               else if startsWithRust ef.path "references/" then .Reference
               else .Other }] }
    | .error _ => sk) sk
  let sk := { sk with files_checksum := some (compute_combined_checksum sk.files) }
  { sk with
    file_history :=
      if sk.file_history.length > 50 then sk.file_history.take 50 else sk.file_history }

/-- The full per-skill mutation of `submit_enrichment_result` when content
was found (lib.rs lines 1788-1860). -/
def enrichSkillUpdate (sanitized : String) (requester : Principal) (now : Nat)
    (src : Option String) (files_found : List EnrichmentFile) (sk : Skill) : Skill :=
  if files_found.isEmpty then enrichBase sanitized requester now src sk
  else enrichApplyFiles requester now src files_found (enrichBase sanitized requester now src sk)

/-- `submit_enrichment_result` (lib.rs lines 1756-1908). -/
def submit_enrichment_result (st : CanisterState) (caller : Principal) (now : Nat)
    (job_id : String) (result : EnrichmentResult) : Except String Unit × CanisterState :=
  if ¬ is_admin_or_worker st caller then (.error "Worker or admin role required", st)
  else
    match lookupM st.enrichment_jobs job_id with
    | none => (.error "Enrichment job not found", st)
    | some job =>
      if job.status ≠ .Processing then
        (.error ("Job not in Processing state (currently: " ++
          job.status.debugStr ++ ")"), st)
      else
        let skill_id := job.skill_id
        let auto_analyze := job.auto_analyze
        let requester := job.requester
        if result.found then
          let content := result.content.getD ""
          if content = "" then
            let ej := updateM st.enrichment_jobs job_id
              (fun j => { j with status := .NotFound, updated_at := now })
            let st1 := { st with enrichment_jobs := ej }
            (.ok (), cleanup_old_jobs st1 now)
          else
            match sanitize_skill_content content with
            | .error e => (.error ("Content sanitization failed: " ++ e), st)
            | .ok sanitized =>
              let sks := updateM st.skills skill_id
                (enrichSkillUpdate sanitized requester now result.source_url result.files_found)
              let st1 := { st with skills := sks }
              let ej := updateM st1.enrichment_jobs job_id
                (fun j => { j with
                  status := .Completed
                  content_found := result.content
                  source_url := result.source_url
                  updated_at := now })
              let st2 := { st1 with enrichment_jobs := ej }
              let st3 :=
                if auto_analyze then
                  match (lookupM st2.users requester).bind
                      (fun u => u.encrypted_anthropic_key) with
                  | some key =>
                    let counter := wrap64 (st2.job_counter + 1)
                    let ajid := "job-" ++ toString counter
                    { st2 with
                      job_counter := counter
                      jobs := insertM st2.jobs ajid
                        { id := ajid
                          skill_id := skill_id
                          model := .Haiku
                          encrypted_api_key := key
                          requester := requester
                          status := .Pending
                          created_at := now
                          updated_at := now
                          error := none } }
                  | none => st2
                else st2
              (.ok (), cleanup_old_jobs st3 now)
        else
          let ej := updateM st.enrichment_jobs job_id
            (fun j => { j with status := .NotFound, updated_at := now })
          let st1 := { st with enrichment_jobs := ej }
          (.ok (), cleanup_old_jobs st1 now)

/-! ## User profile (lib.rs lines 1054-1089) -/

/-- Rust `char::is_ascii_hexdigit`. -/
def isAsciiHexdigitRust (c : Char) : Bool :=
  ('0' ≤ c && c ≤ '9') || ('a' ≤ c && c ≤ 'f') || ('A' ≤ c && c ≤ 'F')

/-- `set_my_encrypted_key` (lib.rs lines 1054-1089). -/
def set_my_encrypted_key (st : CanisterState) (caller : Principal) (now : Nat)
    (encrypted_key : String) : Except String Unit × CanisterState :=
  if ¬ is_authenticated caller then
    (.error "Must be authenticated with Internet Identity", st)
  else if encrypted_key.utf8ByteSize < 56 then (.error "Encrypted key too short", st)
  else if ¬ encrypted_key.data.all isAsciiHexdigitRust then
    (.error "Invalid hex encoding", st)
  else
    match lookupM st.users caller with
    | some _ =>
      (.ok (), { st with users := updateM st.users caller (fun u =>
        { u with
          encrypted_anthropic_key := some encrypted_key
          anthropic_api_key := none
          last_active := now }) })
    | none =>
      let fresh : UserProfile :=
        { principal := caller
          anthropic_api_key := none
          encrypted_anthropic_key := some encrypted_key
          analyses_performed := 0
          created_at := now
          last_active := now }
      (.ok (), { st with users := insertM st.users caller fresh })

/-- `add_worker` (lib.rs lines 1435-1446). -/
def add_worker (st : CanisterState) (caller : Principal) (principal : Principal) :
    Except String Unit × CanisterState :=
  if ¬ is_admin st caller then (.error "Admin only", st)
  else
    let wp := st.config.worker_principals
    let wp := if wp.contains principal then wp else wp ++ [principal]
    (.ok (), { st with config := { st.config with worker_principals := wp } })

/-! ## Skill management (lib.rs lines 2068-2182, 2846-2894) -/

/-- `add_skill` (lib.rs lines 2069-2076): an unvalidated upsert. -/
def add_skill (st : CanisterState) (caller : Principal) (skill : Skill) :
    Except String String × CanisterState :=
  if ¬ is_admin st caller then (.error "Unauthorized", st)
  else (.ok skill.id, { st with skills := insertM st.skills skill.id skill })

/-- `add_skills_batch` (lib.rs lines 2079-2092). -/
def add_skills_batch (st : CanisterState) (caller : Principal) (skills_list : List Skill) :
    Except String Nat × CanisterState :=
  if ¬ is_admin st caller then (.error "Unauthorized", st)
  else
    (.ok skills_list.length,
      { st with skills := skills_list.foldl (fun m sk => insertM m sk.id sk) st.skills })

/-- `add_skills_if_new` (lib.rs lines 2097-2112). -/
def add_skills_if_new (st : CanisterState) (caller : Principal) (skills_list : List Skill) :
    Except String Nat × CanisterState :=
  if ¬ is_admin st caller then (.error "Unauthorized", st)
  else
    let r := skills_list.foldl (fun (p : List (String × Skill) × Nat) sk =>
      if (lookupM p.1 sk.id).isSome then p else (insertM p.1 sk.id sk, p.2 + 1))
      (st.skills, 0)
    (.ok r.2, { st with skills := r.1 })

/-- `update_skill_md` (lib.rs lines 2117-2136). -/
def update_skill_md (st : CanisterState) (caller : Principal) (now : Nat)
    (skill_id : String) (content : Option String) : Except String Unit × CanisterState :=
  if ¬ is_admin st caller then (.error "Unauthorized: admin only", st)
  else
    match (match content with
           | some c => (sanitize_skill_content c).map some
           | none => .ok none : Except String (Option String)) with
    | .error e => (.error e, st)
    | .ok sanitized =>
      match lookupM st.skills skill_id with
      | some _ =>
        (.ok (), { st with skills := updateM st.skills skill_id (fun sk =>
          { sk with skill_md_content := sanitized, updated_at := now }) })
      | none => (.error ("Skill not found: " ++ skill_id), st)

/-- `get_skill` (lib.rs lines 2164-2182): direct lookup, then the
two-part-id fallback to `owner/repo/repo`. -/
def get_skill (st : CanisterState) (id : String) : Option Skill :=
  match lookupM st.skills id with
  | some skill => some skill
  | none =>
    let parts := rustSplit '/' id
    if parts.length = 2 then
      lookupM st.skills
        ((parts.getD 0 "") ++ "/" ++ (parts.getD 1 "") ++ "/" ++ (parts.getD 1 ""))
    else none

/-- `record_install` (lib.rs lines 2493-2534): the rate-limit ledger is
consulted and incremented before the skill lookup. -/
def record_install (st : CanisterState) (caller : Principal) (now : Nat)
    (skill_id : String) : Except String Nat × CanisterState :=
  let key := (caller, skill_id)
  let cw := (lookupM st.install_rate_limits key).getD (0, now)
  let cw := if RATE_LIMIT_WINDOW_NS < now - cw.2 then (0, now) else cw
  if cw.1 ≥ MAX_INSTALLS_PER_WINDOW then
    (.error ("Rate limited: max " ++ toString MAX_INSTALLS_PER_WINDOW ++
      " installs per skill per hour"), st)
  else
    let limits1 := insertM st.install_rate_limits key (cw.1 + 1, cw.2)
    match lookupM st.skills skill_id with
    | some skill =>
      let cnt := wrap64 (skill.install_count + 1)
      (.ok cnt, { st with
        install_rate_limits := limits1
        skills := updateM st.skills skill_id (fun s => { s with install_count := cnt }) })
    | none => (.error ("Skill not found: " ++ skill_id), { st with install_rate_limits := limits1 })

/-- The validation loop of `set_skill_files` (first failure wins). -/
def validateFiles : List SkillFile → Except String Unit
  | [] => .ok ()
  | f :: fs =>
    match sanitize_skill_file f with
    | .error e => .error e
    | .ok _ => validateFiles fs

/-- `set_skill_files` (lib.rs lines 2849-2870). -/
def set_skill_files (st : CanisterState) (caller : Principal) (now : Nat)
    (skill_id : String) (files : List SkillFile) : Except String String × CanisterState :=
  if ¬ is_admin st caller then (.error "Unauthorized", st)
  else
    match validateFiles files with
    | .error e => (.error e, st)
    | .ok _ =>
      let combined := compute_combined_checksum files
      match lookupM st.skills skill_id with
      | some _ =>
        (.ok combined, { st with skills := updateM st.skills skill_id (fun sk =>
          { sk with files := files, files_checksum := some combined, updated_at := now }) })
      | none => (.error "Skill not found", st)

/-- `add_skill_file` (lib.rs lines 2874-2894): replace-by-path, append, and
recompute the combined checksum (no sanitization on this path). -/
def add_skill_file (st : CanisterState) (caller : Principal) (now : Nat)
    (skill_id : String) (file : SkillFile) : Except String String × CanisterState :=
  if ¬ is_admin st caller then (.error "Unauthorized", st)
  else
    match lookupM st.skills skill_id with
    | some sk =>
      let files := (sk.files.filter (fun f => f.path != file.path)) ++ [file]
      let combined := compute_combined_checksum files
      (.ok combined, { st with skills := updateM st.skills skill_id (fun s =>
        { s with files := files, files_checksum := some combined, updated_at := now }) })
    | none => (.error "Skill not found", st)

/-! ## A concrete reachable run of the system

Starting from `init` called by principal `1`, the following sequence is a
legal run: the admin registers a skill, user `2` stores an encrypted key,
requests two Haiku analyses of the same skill (both accepted: the
one-per-model check consults only `analysis_history`, which is still
empty), the admin registers worker `3`, the worker claims both jobs and
submits a well-formed result for each. -/

def pAdmin : Principal := 1

def pUser : Principal := 2

def pWorker : Principal := 3

def hex60 : String := "0123456789abcdef0123456789abcdef0123456789abcdef0123456789ab"

def skill0 : Skill :=
  { id := "s"
    name := "n"
    description := "d"
    owner := "o"
    repo := "r"
    github_url := none
    skill_md_url := none
    skill_md_content := some "# hi\n"
    files := []
    files_checksum := none
    stars := 0
    analysis := none
    analysis_history := []
    file_history := []
    install_count := 0
    created_at := 0
    updated_at := 0
    source := "github" }

def raw0 : RawAnalysis :=
  { ratings := { overall := 3.0, topics := [], flags := [] }
    primary_category := "web"
    secondary_categories := []
    tags := []
    has_mcp := false
    provides_mcp := false
    required_mcps := []
    software_deps := []
    has_references := false
    has_assets := false
    estimated_token_usage := 0
    summary := ""
    strengths := []
    weaknesses := []
    use_cases := []
    compatibility_notes := ""
    prerequisites := [] }

def cexSt0 : CanisterState := canister_init pAdmin

def cexSt1 : CanisterState := (add_skill cexSt0 pAdmin skill0).2

def cexSt2 : CanisterState := (set_my_encrypted_key cexSt1 pUser 0 hex60).2

def cexSt3 : CanisterState := (request_analysis cexSt2 pUser 0 "s" .Haiku).2

def cexSt4 : CanisterState := (request_analysis cexSt3 pUser 0 "s" .Haiku).2

def cexSt5 : CanisterState := (add_worker cexSt4 pAdmin pWorker).2

def cexSt6 : CanisterState := (claim_pending_jobs cexSt5 pWorker 0 10).2

def cexSt7 : CanisterState :=
  (submit_job_result cexSt6 pWorker 1000 "job-1" (.parsed raw0)).2

def cexSt8 : CanisterState :=
  (submit_job_result cexSt7 pWorker 1000 "job-2" (.parsed raw0)).2

/-! ## Claim C1 -/

/-- C1 counterexample: the "at most one analysis per (skill, model) pair"
invariant does not hold after every sequence of operations.  In the legal
run `cexSt0 … cexSt8`, the second `request_analysis` for the same
(skill, Haiku) pair is accepted (the duplicate check consults only
`analysis_history`, which is still empty while both jobs are in flight),
and after both results are submitted the history of skill `"s"` holds two
entries whose `model_used` is `"claude-haiku-4-5"`. -/
theorem c1_counterexample :
    (request_analysis cexSt3 pUser 0 "s" AnalysisModel.Haiku).1 = .ok "job-2" ∧
    (submit_job_result cexSt6 pWorker 1000 "job-1" (.parsed raw0)).1 = .ok () ∧
    (submit_job_result cexSt7 pWorker 1000 "job-2" (.parsed raw0)).1 = .ok () ∧
    ((lookupM cexSt8.skills "s").map (fun sk =>
      sk.analysis_history.countP (fun a => a.model_used == "claude-haiku-4-5"))) =
      some 2 :=
  ⟨rfl, rfl, rfl, rfl⟩

/-- C1 (amended): what `request_analysis` does guarantee: whenever the
canonical id of the requested model already occurs in the skill's
`analysis_history`, the request is refused and the state is unchanged.
(The check does not see Pending/Processing jobs, and the auto-analyze job
queued by `submit_enrichment_result` performs no such check at all, which
is what the counterexample exploits.) -/
theorem c1_request_refused_when_model_in_history
    (st : CanisterState) (caller : Principal) (now : Nat) (skill_id : String)
    (model : AnalysisModel) (sk : Skill)
    (hs : lookupM st.skills skill_id = some sk)
    (hdup : sk.analysis_history.any (fun a => a.model_used == model.to_model_id) = true) :
    ∃ e, request_analysis st caller now skill_id model = (Except.error e, st) := by
  unfold request_analysis
  split
  · exact ⟨_, rfl⟩
  · split
    · exact ⟨_, rfl⟩
    · split
      · exact ⟨_, rfl⟩
      · rw [hs]
        simp only [hdup, if_true]
        exact ⟨_, rfl⟩

def dupSkill : Skill :=
  { skill0 with analysis_history := [analysisOfRaw raw0 pUser 0 .Haiku] }

def dupState : CanisterState := { emptyState with skills := [("s", dupSkill)] }

/-- Witness for the amended C1 theorem at a concrete state whose history
already holds a Haiku analysis. -/
theorem c1_request_refused_witness :
    lookupM dupState.skills "s" = some dupSkill ∧
    dupSkill.analysis_history.any
      (fun a => a.model_used == AnalysisModel.Haiku.to_model_id) = true ∧
    ∃ e, request_analysis dupState pUser 5 "s" AnalysisModel.Haiku =
      (Except.error e, dupState) :=
  ⟨rfl, rfl,
    c1_request_refused_when_model_in_history dupState pUser 5 "s" .Haiku dupSkill rfl rfl⟩

/-! ## Claim C2 -/

/-- C2: the claim is right about `submit_job_result_with_metadata` but the
code of plain `submit_job_result` diverges from it: `parse_analysis_json`
sets `analyzed_by := ic_cdk::caller()` — the submitting worker — and plain
`submit_job_result` never overrides it with the job's requester, while
`submit_job_result_with_metadata` does.  At the reachable state `cexSt6`
(job `"job-1"` Processing, requester `pUser = 2`, submitted by the worker
`pWorker = 3`), the analysis stored by `submit_job_result` — both the
history entry and the promoted displayed analysis — carries
`analyzed_by = 3` (the worker), whereas the metadata variant stores
`analyzed_by = 2` (the requester). -/
theorem c2_analyzed_by_divergence :
    (submit_job_result cexSt6 pWorker 1000 "job-1" (.parsed raw0)).1 = .ok () ∧
    (lookupM cexSt6.jobs "job-1").map (fun j => j.requester) = some pUser ∧
    ((lookupM cexSt7.skills "s").map (fun sk =>
      sk.analysis_history.map (fun (a : SkillAnalysis) => a.analyzed_by))) =
      some [pWorker] ∧
    ((lookupM cexSt7.skills "s").bind (fun sk => sk.analysis)).map
      (fun (a : SkillAnalysis) => a.analyzed_by) = some pWorker ∧
    pWorker ≠ pUser ∧
    ((lookupM (submit_job_result_with_metadata cexSt6 pWorker 1000 "job-1"
        (.parsed raw0) "1.4.0" "1.0.0").2.skills "s").map (fun sk =>
      sk.analysis_history.map (fun (a : SkillAnalysis) => a.analyzed_by))) =
      some [pUser] :=
  ⟨rfl, rfl, rfl, rfl, by decide, rfl⟩

/-! ## Claim C3 -/

def badSkill : Skill :=
  { skill0 with
    id := "t"
    files := [{ path := "a.md", content := "x", checksum := "beef",
                size_bytes := 1, file_type := .Other }]
    files_checksum := none }

def badState : CanisterState := (add_skill cexSt0 pAdmin badSkill).2

/-- C3 counterexample: `add_skill` is an unvalidated upsert — it stores the
caller's record verbatim.  The admin adds a skill with a non-empty file set
and `files_checksum = None`; the call is accepted and the stored skill's
`files_checksum` does not equal the combined checksum of its files. -/
theorem c3_counterexample :
    (add_skill cexSt0 pAdmin badSkill).1 = .ok "t" ∧
    lookupM badState.skills "t" = some badSkill ∧
    ¬ badSkill.files_checksum = some (compute_combined_checksum badSkill.files) := by
  refine ⟨rfl, rfl, ?_⟩
  intro h
  rw [show badSkill.files_checksum = none from rfl] at h
  exact Option.noConfusion h

def cexJob1 : AnalysisJob :=
  { id := "job-1"
    skill_id := "s"
    model := .Haiku
    encrypted_api_key := hex60
    requester := pUser
    status := .Processing
    created_at := 0
    updated_at := 0
    error := none }

/-- The per-skill checksum invariant claimed by C3. -/
def checksumInv (st : CanisterState) : Prop :=
  ∀ id sk, lookupM st.skills id = some sk →
    sk.files_checksum = some (compute_combined_checksum sk.files)

/-- `enrichSkillUpdate` preserves the checksum invariant of the skill it
rewrites: when `files_found` is empty it leaves `files` and
`files_checksum` untouched, otherwise it recomputes the checksum from the
final file set. -/
theorem enrichApplyFiles_consistent (requester : Principal) (now : Nat)
    (src : Option String) (files_found : List EnrichmentFile) (sk : Skill) :
    (enrichApplyFiles requester now src files_found sk).files_checksum =
      some (compute_combined_checksum
        (enrichApplyFiles requester now src files_found sk).files) := rfl

theorem enrichSkillUpdate_consistent (sanitized : String) (requester : Principal)
    (now : Nat) (src : Option String) (files_found : List EnrichmentFile) (sk : Skill)
    (h : sk.files_checksum = some (compute_combined_checksum sk.files)) :
    (enrichSkillUpdate sanitized requester now src files_found sk).files_checksum =
      some (compute_combined_checksum
        (enrichSkillUpdate sanitized requester now src files_found sk).files) := by
  unfold enrichSkillUpdate
  split
  · exact h
  · exact enrichApplyFiles_consistent requester now src files_found _

/-- Pointwise preservation of the checksum invariant under a `get_mut`-style
update of one skill. -/
theorem checksumInv_updateM (st : CanisterState) (k : String) (f : Skill → Skill)
    (hinv : checksumInv st) (id : String) (sk : Skill)
    (h : lookupM (updateM st.skills k f) id = some sk)
    (hf : ∀ sk0, lookupM st.skills k = some sk0 →
      (f sk0).files_checksum = some (compute_combined_checksum (f sk0).files)) :
    sk.files_checksum = some (compute_combined_checksum sk.files) := by
  rw [lookupM_updateM] at h
  by_cases hk : k = id
  · simp only [hk, if_true] at h
    subst hk
    cases hlook : lookupM st.skills k with
    | none => rw [hlook] at h; simp at h
    | some sk0 =>
      rw [hlook] at h
      simp only [Option.map_some', Option.some.injEq] at h
      subst h
      exact hf sk0 hlook
  · simp only [hk, if_false] at h
    exact hinv id sk h

/-- C3 (amended): the checksum invariant is established by
`set_skill_files` and `add_skill_file` (which recompute `files_checksum`
from the stored file set) and preserved by `submit_enrichment_result`; the
batch-ingest operations (`add_skill`, `add_skills_batch`,
`add_skills_if_new`), however, store the caller's record verbatim, so the
invariant holds after them only if it held of the input — which is what
the counterexample violates. -/
theorem c3_checksum_amended :
    (∀ (st : CanisterState) (caller : Principal) (now : Nat) (skill_id : String)
        (files : List SkillFile) (c : String) (st' : CanisterState),
      set_skill_files st caller now skill_id files = (.ok c, st') →
      ∃ sk', lookupM st'.skills skill_id = some sk' ∧ sk'.files = files ∧
        sk'.files_checksum = some (compute_combined_checksum sk'.files)) ∧
    (∀ (st : CanisterState) (caller : Principal) (now : Nat) (skill_id : String)
        (file : SkillFile) (c : String) (st' : CanisterState),
      add_skill_file st caller now skill_id file = (.ok c, st') →
      ∃ sk', lookupM st'.skills skill_id = some sk' ∧
        sk'.files_checksum = some (compute_combined_checksum sk'.files)) ∧
    (∀ (st : CanisterState) (caller : Principal) (now : Nat) (job_id : String)
        (result : EnrichmentResult),
      checksumInv st →
      checksumInv (submit_enrichment_result st caller now job_id result).2) := by
  refine ⟨?_, ?_, ?_⟩
  · intro st caller now skill_id files c st' h
    unfold set_skill_files at h
    split at h
    · simp at h
    · split at h
      · simp at h
      · split at h
        next sk hsk =>
          simp only [Prod.mk.injEq, Except.ok.injEq] at h
          obtain ⟨h1, h2⟩ := h
          subst h2
          have hl : lookupM (updateM st.skills skill_id (fun sk0 =>
              { sk0 with files := files,
                         files_checksum := some (compute_combined_checksum files),
                         updated_at := now })) skill_id =
              some { sk with files := files,
                             files_checksum := some (compute_combined_checksum files),
                             updated_at := now } := by
            rw [lookupM_updateM, hsk]
            simp
          exact ⟨_, hl, rfl, rfl⟩
        next hsk => simp at h
  · intro st caller now skill_id file c st' h
    unfold add_skill_file at h
    split at h
    · simp at h
    · split at h
      next sk hsk =>
        simp only [Prod.mk.injEq, Except.ok.injEq] at h
        obtain ⟨h1, h2⟩ := h
        subst h2
        have hl : lookupM (updateM st.skills skill_id (fun s =>
            { s with files := (sk.files.filter (fun f => f.path != file.path)) ++ [file],
                     files_checksum := some (compute_combined_checksum
                       ((sk.files.filter (fun f => f.path != file.path)) ++ [file])),
                     updated_at := now })) skill_id =
            some { sk with
                   files := (sk.files.filter (fun f => f.path != file.path)) ++ [file],
                   files_checksum := some (compute_combined_checksum
                     ((sk.files.filter (fun f => f.path != file.path)) ++ [file])),
                   updated_at := now } := by
          rw [lookupM_updateM, hsk]
          simp
        exact ⟨_, hl, rfl⟩
      next hsk => simp at h
  · intro st caller now job_id result hinv
    unfold submit_enrichment_result
    split
    · exact hinv
    · split
      · exact hinv
      · split
        · exact hinv
        · dsimp only
          split
          · split
            · exact hinv
            · split
              · exact hinv
              · split
                · intro id sk h
                  split at h
                  · exact checksumInv_updateM st _ _ hinv id sk h
                      (fun sk0 hsk0 =>
                        enrichSkillUpdate_consistent _ _ _ _ _ sk0 (hinv _ sk0 hsk0))
                  · exact checksumInv_updateM st _ _ hinv id sk h
                      (fun sk0 hsk0 =>
                        enrichSkillUpdate_consistent _ _ _ _ _ sk0 (hinv _ sk0 hsk0))
                · intro id sk h
                  exact checksumInv_updateM st _ _ hinv id sk h
                    (fun sk0 hsk0 =>
                      enrichSkillUpdate_consistent _ _ _ _ _ sk0 (hinv _ sk0 hsk0))
          · exact hinv

def goodFile : SkillFile :=
  { path := "a.md", content := "x", checksum := compute_sha256 "x",
    size_bytes := 1, file_type := .Other }

/-- Witness for the amended C3 theorem: a concrete `set_skill_files`, a
concrete `add_skill_file`, and enrichment preservation from a state that
satisfies the invariant vacuously. -/
theorem c3_checksum_amended_witness :
    (∃ sk', lookupM (set_skill_files cexSt1 pAdmin 7 "s" [goodFile]).2.skills "s" =
        some sk' ∧ sk'.files = [goodFile] ∧
        sk'.files_checksum = some (compute_combined_checksum sk'.files)) ∧
    (∃ sk', lookupM (add_skill_file cexSt1 pAdmin 7 "s" goodFile).2.skills "s" =
        some sk' ∧
        sk'.files_checksum = some (compute_combined_checksum sk'.files)) ∧
    checksumInv (submit_enrichment_result emptyState pAdmin 9 "enrich-1"
      { found := true, content := some "# x\n", source_url := none, files_found := [] }).2 :=
  ⟨c3_checksum_amended.1 cexSt1 pAdmin 7 "s" [goodFile] _ _ rfl,
   c3_checksum_amended.2.1 cexSt1 pAdmin 7 "s" goodFile _ _ rfl,
   c3_checksum_amended.2.2 emptyState pAdmin 9 "enrich-1" _
     (fun _ _ h => Option.noConfusion h)⟩

/-! ## Claim C4 -/

theorem take_if_over (l : List SkillAnalysis) (n : Nat) :
    (if l.length > n then l.take n else l) = l.take n := by
  by_cases h : l.length > n
  · simp [h]
  · simp only [h, if_false]
    exact (List.take_of_length_le (by omega)).symm

/-- The skills store is untouched by the retention sweep. -/
theorem cleanup_skills_eq (st : CanisterState) (now : Nat) :
    (cleanup_old_jobs st now).skills = st.skills := rfl

/-- C4: on a successful submission, the new analysis (parse result of the
payload) is prepended to `analysis_history`, which is truncated to 20
entries, and the displayed `skill.analysis` is replaced exactly when the
job model's strength (Haiku 1, Opus 2) is at least the strength parsed from
the displayed analysis's `model_used` (0 when absent or unparsable); in
particular a Haiku submission over a displayed Opus analysis leaves the
displayed analysis unchanged while becoming `analysis_history[0]`. -/
theorem c4_promotion (st : CanisterState) (caller : Principal) (now : Nat)
    (job_id : String) (raw : RawAnalysis) (job : AnalysisJob) (sk : Skill)
    (hw : is_admin_or_worker st caller = true)
    (hj : lookupM st.jobs job_id = some job)
    (hp : job.status = .Processing)
    (hs : lookupM st.skills job.skill_id = some sk) :
    (submit_job_result st caller now job_id (.parsed raw)).1 = .ok () ∧
    lookupM (submit_job_result st caller now job_id (.parsed raw)).2.skills job.skill_id =
      some (analysisSkillUpdate (analysisOfRaw raw caller now job.model) job.model now sk) ∧
    (analysisSkillUpdate (analysisOfRaw raw caller now job.model) job.model now sk).analysis_history =
      (analysisOfRaw raw caller now job.model :: sk.analysis_history).take MAX_ANALYSIS_HISTORY ∧
    (analysisSkillUpdate (analysisOfRaw raw caller now job.model) job.model now sk).analysis =
      (if job.model.strength ≥
          ((sk.analysis.bind (fun x => AnalysisModel.from_model_id x.model_used)).map
            AnalysisModel.strength).getD 0
        then some (analysisOfRaw raw caller now job.model)
        else sk.analysis) ∧
    (job.model = .Haiku →
      sk.analysis.bind (fun x => AnalysisModel.from_model_id x.model_used) = some .Opus →
      (analysisSkillUpdate (analysisOfRaw raw caller now job.model) job.model now sk).analysis =
          sk.analysis ∧
      (analysisSkillUpdate (analysisOfRaw raw caller now job.model) job.model now
          sk).analysis_history.head? =
        some (analysisOfRaw raw caller now job.model)) := by
  refine ⟨?_, ?_, ?_, ?_, ?_⟩
  · unfold submit_job_result
    rw [hj]
    simp [hw, hp, parse_analysis_json]
  · unfold submit_job_result
    rw [hj]
    simp only [hw, not_true_eq_false, if_false, hp, parse_analysis_json]
    simp only [ne_eq, not_true_eq_false, if_false, reduceCtorEq]
    rw [cleanup_skills_eq]
    simp only []
    rw [lookupM_updateM]
    simp [hs]
  · unfold analysisSkillUpdate
    simp only []
    rw [take_if_over]
  · unfold analysisSkillUpdate
    simp only []
  · intro hm ho
    constructor
    · unfold analysisSkillUpdate
      simp only [ho, hm]
      simp [AnalysisModel.strength]
    · unfold analysisSkillUpdate
      simp only []
      rw [take_if_over]
      simp [MAX_ANALYSIS_HISTORY, List.take]

def opSkill : Skill :=
  { skill0 with
    analysis := some (analysisOfRaw raw0 pUser 0 .Opus)
    analysis_history := [analysisOfRaw raw0 pUser 0 .Opus] }

def opJob : AnalysisJob := { cexJob1 with id := "job-9" }

def opState : CanisterState :=
  { emptyState with
    skills := [("s", opSkill)]
    jobs := [("job-9", opJob)]
    config := { emptyState.config with worker_principals := [pWorker] } }

/-- Witness for C4 at a state whose displayed analysis is Opus while a
Processing Haiku job is submitted. -/
theorem c4_promotion_witness :
    is_admin_or_worker opState pWorker = true ∧
    lookupM opState.jobs "job-9" = some opJob ∧
    opJob.status = .Processing ∧
    lookupM opState.skills "s" = some opSkill ∧
    ((submit_job_result opState pWorker 44 "job-9" (.parsed raw0)).1 = .ok () ∧
     lookupM (submit_job_result opState pWorker 44 "job-9" (.parsed raw0)).2.skills
        opJob.skill_id =
       some (analysisSkillUpdate (analysisOfRaw raw0 pWorker 44 opJob.model) opJob.model 44
         opSkill) ∧
     (analysisSkillUpdate (analysisOfRaw raw0 pWorker 44 opJob.model) opJob.model 44
         opSkill).analysis_history =
       (analysisOfRaw raw0 pWorker 44 opJob.model :: opSkill.analysis_history).take
         MAX_ANALYSIS_HISTORY ∧
     (analysisSkillUpdate (analysisOfRaw raw0 pWorker 44 opJob.model) opJob.model 44
         opSkill).analysis =
       (if opJob.model.strength ≥
           ((opSkill.analysis.bind (fun x => AnalysisModel.from_model_id x.model_used)).map
             AnalysisModel.strength).getD 0
         then some (analysisOfRaw raw0 pWorker 44 opJob.model)
         else opSkill.analysis) ∧
     (opJob.model = .Haiku →
       opSkill.analysis.bind (fun x => AnalysisModel.from_model_id x.model_used) =
         some .Opus →
       (analysisSkillUpdate (analysisOfRaw raw0 pWorker 44 opJob.model) opJob.model 44
           opSkill).analysis = opSkill.analysis ∧
       (analysisSkillUpdate (analysisOfRaw raw0 pWorker 44 opJob.model) opJob.model 44
           opSkill).analysis_history.head? =
         some (analysisOfRaw raw0 pWorker 44 opJob.model))) :=
  ⟨rfl, rfl, rfl, rfl,
    c4_promotion opState pWorker 44 "job-9" raw0 opJob opSkill rfl rfl rfl rfl⟩

/-! ## Claim C6 -/

theorem mem_insSortedKey (a x : String × Nat) (l : List (String × Nat))
    (h : x ∈ insSortedKey a l) : x = a ∨ x ∈ l := by
  induction l with
  | nil => simpa [insSortedKey] using h
  | cons b bs ih =>
    unfold insSortedKey at h
    by_cases hc : a.2 ≤ b.2
    · simp only [hc, if_true] at h
      rcases List.mem_cons.mp h with h1 | h1
      · exact Or.inl h1
      · exact Or.inr h1
    · simp only [hc, if_false] at h
      rcases List.mem_cons.mp h with h1 | h1
      · exact Or.inr (by simp [h1])
      · rcases ih h1 with h2 | h2
        · exact Or.inl h2
        · exact Or.inr (List.mem_cons_of_mem _ h2)

theorem mem_insSortKey (x : String × Nat) (l : List (String × Nat))
    (h : x ∈ insSortKey l) : x ∈ l := by
  induction l with
  | nil => simp [insSortKey] at h
  | cons a rest ih =>
    unfold insSortKey at h
    rcases mem_insSortedKey a x _ h with h1 | h1
    · simp [h1]
    · exact List.mem_cons_of_mem _ (ih h1)

theorem lookupM_of_mem_nodup {κ α : Type} [DecidableEq κ] (m : List (κ × α)) (k : κ)
    (v : α) (hnd : (m.map Prod.fst).Nodup) (hmem : (k, v) ∈ m) :
    lookupM m k = some v := by
  induction m with
  | nil => simp at hmem
  | cons hd tl ih =>
    obtain ⟨k0, v0⟩ := hd
    simp only [List.map_cons, List.nodup_cons] at hnd
    rcases List.mem_cons.mp hmem with h | h
    · injection h with h1 h2
      subst h1
      subst h2
      simp [lookupM]
    · by_cases hk : k0 = k
      · exfalso
        subst hk
        exact hnd.1 (by simpa using List.mem_map_of_mem Prod.fst h)
      · simp only [lookupM, hk, if_false]
        exact ih hnd.2 h

/-- Any id selected for over-limit removal belongs to a terminal entry of
the filtered queue. -/
theorem overflow_id_terminal {α : Type} (isT : α → Bool) (upd : α → Nat)
    (jobs1 : List (String × α)) (n : Nat) (id : String)
    (hid : id ∈ ((insSortKey ((jobs1.filter (fun p => isT p.2)).map
      (fun p => (p.1, upd p.2)))).take n).map Prod.fst) :
    ∃ x, (id, x) ∈ jobs1 ∧ isT x = true := by
  rcases List.mem_map.mp hid with ⟨q, hmem, heq⟩
  have h2 := List.take_subset _ _ hmem
  have h3 := mem_insSortKey _ _ h2
  rcases List.mem_map.mp h3 with ⟨p, hp, hpe⟩
  have hpt : isT p.2 = true := by simpa using List.of_mem_filter hp
  have hp1 : p.1 = id := by
    have h4 : p.1 = q.1 := by rw [← hpe]
    rw [h4, heq]
  refine ⟨p.2, ?_, hpt⟩
  have h5 := List.mem_of_mem_filter hp
  rw [← hp1]
  simpa using h5

/-- If an id is not among the selected removal ids, the removal filter
keeps its entry. -/
theorem not_mem_keep_filter {α : Type} (ids : List String) (id : String) (j : α)
    (h : ¬ id ∈ ids) : (fun (p : String × α) => !ids.contains p.1) (id, j) = true := by
  simp only [Bool.not_eq_true']
  cases hq : ids.contains id
  · rfl
  · exact absurd (List.elem_iff.mp hq) h

/-- An entry of the age-swept queue that is gone after the id-removal
filter had its id selected for removal. -/
theorem removed_by_ids {α : Type} (ids : List String) (jobs1 : List (String × α))
    (id : String) (j : α)
    (h1 : lookupM jobs1 id = some j)
    (hgone : lookupM (jobs1.filter (fun p => !ids.contains p.1)) id = none) :
    id ∈ ids := by
  by_contra hin
  have hk2 := not_mem_keep_filter ids id j hin
  have hkeep := lookupM_filter_of_keep jobs1
    (fun p => !ids.contains p.1) id j h1 hk2
  rw [hkeep] at hgone
  exact Option.noConfusion hgone

/-- The retention sweep never touches a non-terminal entry. -/
theorem cleanupQueue_keeps_nonterminal {α : Type} (isT : α → Bool) (upd : α → Nat)
    (cutoff : Nat) (jobs : List (String × α)) (id : String) (j : α)
    (hnd : (jobs.map Prod.fst).Nodup)
    (hl : lookupM jobs id = some j) (hterm : isT j = false) :
    lookupM (cleanupQueue isT upd cutoff jobs) id = some j := by
  unfold cleanupQueue
  dsimp only
  have hkeep : retainJob isT upd cutoff (id, j) = true := by simp [retainJob, hterm]
  have h1 : lookupM (jobs.filter (retainJob isT upd cutoff)) id = some j :=
    lookupM_filter_of_keep _ _ _ _ hl hkeep
  split
  next hover =>
    apply lookupM_filter_of_keep _ _ _ _ h1
    apply not_mem_keep_filter
    intro hinmem
    rcases overflow_id_terminal isT upd _ _ _ hinmem with ⟨x, hx, hxt⟩
    have hjx : lookupM jobs id = some x := by
      apply lookupM_of_mem_nodup _ _ _ hnd
      exact List.mem_of_mem_filter hx
    rw [hl] at hjx
    have hje : j = x := by injection hjx
    rw [← hje] at hxt
    rw [hterm] at hxt
    exact Bool.noConfusion hxt
  next hover => exact h1

/-- An entry removed by the retention sweep is terminal, and it was removed
either because it aged past the cutoff or because the queue was over the
retention limit after the age sweep. -/
theorem cleanupQueue_removed {α : Type} (isT : α → Bool) (upd : α → Nat)
    (cutoff : Nat) (jobs : List (String × α)) (id : String) (j : α)
    (hnd : (jobs.map Prod.fst).Nodup)
    (hl : lookupM jobs id = some j)
    (hgone : lookupM (cleanupQueue isT upd cutoff jobs) id = none) :
    isT j = true ∧ (upd j ≤ cutoff ∨
      MAX_JOBS_RETAINED < (jobs.filter (retainJob isT upd cutoff)).length) := by
  by_cases hkeep : retainJob isT upd cutoff (id, j) = true
  · have h1 : lookupM (jobs.filter (retainJob isT upd cutoff)) id = some j :=
      lookupM_filter_of_keep _ _ _ _ hl hkeep
    unfold cleanupQueue at hgone
    dsimp only at hgone
    split at hgone
    next hover =>
      have hin := removed_by_ids _ _ _ _ h1 hgone
      rcases overflow_id_terminal isT upd _ _ _ hin with ⟨x, hx, hxt⟩
      have hjx : lookupM jobs id = some x :=
        lookupM_of_mem_nodup _ _ _ hnd (List.mem_of_mem_filter hx)
      rw [hl] at hjx
      have hje : j = x := by injection hjx
      constructor
      · rw [hje]
        exact hxt
      · exact Or.inr (by omega)
    next hover =>
      rw [h1] at hgone
      exact Option.noConfusion hgone
  · have hcase : isT j = true ∧ ¬ cutoff < upd j := by
      by_cases ht : isT j = true
      · refine ⟨ht, ?_⟩
        intro hcut
        exact hkeep (by simp [retainJob, ht, hcut])
      · exfalso
        apply hkeep
        have hfj : isT j = false := by
          revert ht
          cases isT j <;> simp
        simp [retainJob, hfj]
    exact ⟨hcase.1, Or.inl (by omega)⟩

theorem analysisTerminal_false_iff (j : AnalysisJob) :
    analysisTerminal j = false ↔ (j.status = .Pending ∨ j.status = .Processing) := by
  cases hs : j.status <;> simp [analysisTerminal, hs]

theorem analysisTerminal_true_iff (j : AnalysisJob) :
    analysisTerminal j = true ↔ (j.status = .Completed ∨ j.status = .Failed) := by
  cases hs : j.status <;> simp [analysisTerminal, hs]

theorem enrichmentTerminal_false_iff (j : EnrichmentJob) :
    enrichmentTerminal j = false ↔ (j.status = .Pending ∨ j.status = .Processing) := by
  cases hs : j.status <;> simp [enrichmentTerminal, hs]

theorem enrichmentTerminal_true_iff (j : EnrichmentJob) :
    enrichmentTerminal j = true ↔
      (j.status = .Completed ∨ j.status = .Failed ∨ j.status = .NotFound) := by
  cases hs : j.status <;> simp [enrichmentTerminal, hs]

/-- C6: the retention sweep never removes a Pending or Processing job from
either queue (such entries survive unchanged); every entry it removes is
terminal (Completed/Failed for analysis, Completed/Failed/NotFound for
enrichment), and is removed either because its `updated_at` lies at or past
the 24-hour cutoff or because the queue exceeded the 10,000-entry retention
limit after the age sweep. -/
theorem c6_cleanup_safety (st : CanisterState) (now : Nat)
    (hnd1 : (st.jobs.map Prod.fst).Nodup)
    (hnd2 : (st.enrichment_jobs.map Prod.fst).Nodup) :
    (∀ id job, lookupM st.jobs id = some job →
      (job.status = .Pending ∨ job.status = .Processing) →
      lookupM (cleanup_old_jobs st now).jobs id = some job) ∧
    (∀ id job, lookupM st.jobs id = some job →
      lookupM (cleanup_old_jobs st now).jobs id = none →
      (job.status = .Completed ∨ job.status = .Failed) ∧
      (job.updated_at ≤ now - JOB_CLEANUP_AGE_NS ∨
        MAX_JOBS_RETAINED < (st.jobs.filter (retainJob analysisTerminal
          (fun j => j.updated_at) (now - JOB_CLEANUP_AGE_NS))).length)) ∧
    (∀ id job, lookupM st.enrichment_jobs id = some job →
      (job.status = .Pending ∨ job.status = .Processing) →
      lookupM (cleanup_old_jobs st now).enrichment_jobs id = some job) ∧
    (∀ id job, lookupM st.enrichment_jobs id = some job →
      lookupM (cleanup_old_jobs st now).enrichment_jobs id = none →
      (job.status = .Completed ∨ job.status = .Failed ∨ job.status = .NotFound) ∧
      (job.updated_at ≤ now - JOB_CLEANUP_AGE_NS ∨
        MAX_JOBS_RETAINED < (st.enrichment_jobs.filter (retainJob enrichmentTerminal
          (fun j => j.updated_at) (now - JOB_CLEANUP_AGE_NS))).length)) := by
  refine ⟨?_, ?_, ?_, ?_⟩
  · intro id job hl hnt
    exact cleanupQueue_keeps_nonterminal _ _ _ _ _ _ hnd1 hl
      ((analysisTerminal_false_iff job).mpr hnt)
  · intro id job hl hgone
    have := cleanupQueue_removed _ _ _ _ _ _ hnd1 hl hgone
    exact ⟨(analysisTerminal_true_iff job).mp this.1, this.2⟩
  · intro id job hl hnt
    exact cleanupQueue_keeps_nonterminal _ _ _ _ _ _ hnd2 hl
      ((enrichmentTerminal_false_iff job).mpr hnt)
  · intro id job hl hgone
    have := cleanupQueue_removed _ _ _ _ _ _ hnd2 hl hgone
    exact ⟨(enrichmentTerminal_true_iff job).mp this.1, this.2⟩

def oldPending : AnalysisJob :=
  { id := "p1"
    skill_id := "s"
    model := .Haiku
    encrypted_api_key := "k"
    requester := pUser
    status := .Pending
    created_at := 0
    updated_at := 0
    error := none }

def oldDone : AnalysisJob := { oldPending with id := "c1", status := .Completed }

def c6State : CanisterState :=
  { emptyState with jobs := [("p1", oldPending), ("c1", oldDone)] }

/-- Witness for C6: a two-day-old Pending job survives a sweep at
`now = 2 days` unchanged, while a Completed job of the same age is removed,
and the removal characterization applies to it. -/
theorem c6_cleanup_witness :
    (c6State.jobs.map Prod.fst).Nodup ∧
    (c6State.enrichment_jobs.map Prod.fst).Nodup ∧
    lookupM c6State.jobs "p1" = some oldPending ∧
    (oldPending.status = .Pending ∨ oldPending.status = .Processing) ∧
    lookupM (cleanup_old_jobs c6State 172800000000000).jobs "p1" = some oldPending ∧
    lookupM (cleanup_old_jobs c6State 172800000000000).jobs "c1" = none ∧
    ((oldDone.status = .Completed ∨ oldDone.status = .Failed) ∧
      (oldDone.updated_at ≤ 172800000000000 - JOB_CLEANUP_AGE_NS ∨
        MAX_JOBS_RETAINED < (c6State.jobs.filter (retainJob analysisTerminal
          (fun j => j.updated_at) (172800000000000 - JOB_CLEANUP_AGE_NS))).length)) :=
  ⟨by decide, by decide, rfl, Or.inl rfl,
    (c6_cleanup_safety c6State 172800000000000 (by decide) (by decide)).1 "p1"
      oldPending rfl (Or.inl rfl),
    rfl,
    (c6_cleanup_safety c6State 172800000000000 (by decide) (by decide)).2.1 "c1"
      oldDone rfl rfl⟩

/-! ## Claims C7 and C9 -/

/-- A `record_install` call that passes the rate limit and finds the skill:
the ledger entry becomes `(c + 1, w)` and the install counter increments. -/
theorem record_install_ok_step (st : CanisterState) (caller : Principal) (now : Nat)
    (id : String) (c w : Nat) (sk : Skill)
    (hl : (lookupM st.install_rate_limits (caller, id)).getD (0, now) = (c, w))
    (hnr : ¬ RATE_LIMIT_WINDOW_NS < now - w)
    (hc : c < MAX_INSTALLS_PER_WINDOW)
    (hsk : lookupM st.skills id = some sk)
    (hlt : sk.install_count + 1 < 2 ^ 64) :
    record_install st caller now id =
      (.ok (sk.install_count + 1),
        { st with
          install_rate_limits := insertM st.install_rate_limits (caller, id) (c + 1, w)
          skills := updateM st.skills id (fun s =>
            { s with install_count := sk.install_count + 1 }) }) := by
  unfold record_install
  dsimp only
  rw [hl]
  dsimp only
  rw [if_neg hnr]
  rw [if_neg (by omega)]
  rw [hsk]
  dsimp only
  rw [show wrap64 (sk.install_count + 1) = sk.install_count + 1 from Nat.mod_eq_of_lt hlt]

/-- A `record_install` call refused by the rate limit leaves the state
completely unchanged. -/
theorem record_install_refused_step (st : CanisterState) (caller : Principal) (now : Nat)
    (id : String) (c w : Nat)
    (hl : (lookupM st.install_rate_limits (caller, id)).getD (0, now) = (c, w))
    (hnr : ¬ RATE_LIMIT_WINDOW_NS < now - w)
    (hc : MAX_INSTALLS_PER_WINDOW ≤ c) :
    record_install st caller now id =
      (.error ("Rate limited: max " ++ toString MAX_INSTALLS_PER_WINDOW ++
        " installs per skill per hour"), st) := by
  unfold record_install
  dsimp only
  rw [hl]
  dsimp only
  rw [if_neg hnr]
  rw [if_pos (by omega)]

/-- A `record_install` call for a missing skill still consumes the
rate-limit budget: the ledger entry is incremented before the lookup
fails. -/
theorem record_install_notfound_step (st : CanisterState) (caller : Principal) (now : Nat)
    (id : String) (c w : Nat)
    (hl : (lookupM st.install_rate_limits (caller, id)).getD (0, now) = (c, w))
    (hnr : ¬ RATE_LIMIT_WINDOW_NS < now - w)
    (hc : c < MAX_INSTALLS_PER_WINDOW)
    (hsk : lookupM st.skills id = none) :
    record_install st caller now id =
      (.error ("Skill not found: " ++ id),
        { st with
          install_rate_limits :=
            insertM st.install_rate_limits (caller, id) (c + 1, w) }) := by
  unfold record_install
  dsimp only
  rw [hl]
  dsimp only
  rw [if_neg hnr]
  rw [if_neg (by omega)]
  rw [hsk]

/-- A `record_install` call whose window has expired resets the ledger
entry to `(1, now)` before proceeding. -/
theorem record_install_reset_step (st : CanisterState) (caller : Principal) (now : Nat)
    (id : String) (c w : Nat) (sk : Skill)
    (hl : (lookupM st.install_rate_limits (caller, id)).getD (0, now) = (c, w))
    (hr : RATE_LIMIT_WINDOW_NS < now - w)
    (hsk : lookupM st.skills id = some sk)
    (hlt : sk.install_count + 1 < 2 ^ 64) :
    record_install st caller now id =
      (.ok (sk.install_count + 1),
        { st with
          install_rate_limits := insertM st.install_rate_limits (caller, id) (1, now)
          skills := updateM st.skills id (fun s =>
            { s with install_count := sk.install_count + 1 }) }) := by
  unfold record_install
  dsimp only
  rw [hl]
  dsimp only
  rw [if_pos hr]
  rw [if_neg (by simp [MAX_INSTALLS_PER_WINDOW])]
  rw [hsk]
  dsimp only
  rw [show wrap64 (sk.install_count + 1) = sk.install_count + 1 from Nat.mod_eq_of_lt hlt]

/-- Iterated `record_install` calls at the given sequence of times. -/
def riChain (st : CanisterState) (caller : Principal) (id : String) :
    List Nat → CanisterState
  | [] => st
  | t :: ts => riChain (record_install st caller t id).2 caller id ts

/-- C7: for a fixed caller and an existing skill, starting from a fresh
rate-limit window, six `record_install` calls within one hour behave as:
the first five succeed, each incrementing `install_count` by exactly one;
the sixth is refused with the rate-limit error and leaves the state
completely unchanged.  A call whose window has expired
(`now - window_start > 1 hour`) resets the counter to `(1, now)` and
proceeds. -/
theorem c7_rate_limit (st0 : CanisterState) (caller : Principal) (id : String)
    (sk : Skill) (t1 t2 t3 t4 t5 t6 : Nat)
    (hfresh : lookupM st0.install_rate_limits (caller, id) = none)
    (hsk : lookupM st0.skills id = some sk)
    (hov : sk.install_count + 5 < 2 ^ 64)
    (h2 : t2 ≤ t1 + RATE_LIMIT_WINDOW_NS)
    (h3 : t3 ≤ t1 + RATE_LIMIT_WINDOW_NS)
    (h4 : t4 ≤ t1 + RATE_LIMIT_WINDOW_NS)
    (h5 : t5 ≤ t1 + RATE_LIMIT_WINDOW_NS)
    (h6 : t6 ≤ t1 + RATE_LIMIT_WINDOW_NS) :
    ((record_install st0 caller t1 id).1 = .ok (sk.install_count + 1)) ∧
    ((record_install (riChain st0 caller id [t1]) caller t2 id).1 =
      .ok (sk.install_count + 2)) ∧
    ((record_install (riChain st0 caller id [t1, t2]) caller t3 id).1 =
      .ok (sk.install_count + 3)) ∧
    ((record_install (riChain st0 caller id [t1, t2, t3]) caller t4 id).1 =
      .ok (sk.install_count + 4)) ∧
    ((record_install (riChain st0 caller id [t1, t2, t3, t4]) caller t5 id).1 =
      .ok (sk.install_count + 5)) ∧
    ((lookupM (riChain st0 caller id [t1, t2, t3, t4, t5]).skills id).map
      (fun s => s.install_count) = some (sk.install_count + 5)) ∧
    ((record_install (riChain st0 caller id [t1, t2, t3, t4, t5]) caller t6 id).1 =
      .error ("Rate limited: max " ++ toString MAX_INSTALLS_PER_WINDOW ++
        " installs per skill per hour")) ∧
    ((record_install (riChain st0 caller id [t1, t2, t3, t4, t5]) caller t6 id).2 =
      riChain st0 caller id [t1, t2, t3, t4, t5]) ∧
    (∀ (st : CanisterState) (now c w : Nat) (sk2 : Skill),
      lookupM st.install_rate_limits (caller, id) = some (c, w) →
      RATE_LIMIT_WINDOW_NS < now - w →
      lookupM st.skills id = some sk2 →
      sk2.install_count + 1 < 2 ^ 64 →
      (record_install st caller now id).1 = .ok (sk2.install_count + 1) ∧
      lookupM (record_install st caller now id).2.install_rate_limits (caller, id) =
        some (1, now)) := by
  have e1 := record_install_ok_step st0 caller t1 id 0 t1 sk
    (by rw [hfresh]; rfl) (by omega) (by decide) hsk (by omega)
  have l2 : (lookupM (record_install st0 caller t1 id).2.install_rate_limits
      (caller, id)).getD (0, t2) = (1, t1) := by
    rw [e1]
    simp [lookupM_insertM]
  have skh2 : lookupM (record_install st0 caller t1 id).2.skills id =
      some { sk with install_count := sk.install_count + 1 } := by
    rw [e1]
    simp [lookupM_updateM, hsk]
  have e2 := record_install_ok_step (record_install st0 caller t1 id).2 caller t2 id 1 t1
    { sk with install_count := sk.install_count + 1 } l2 (by omega) (by decide) skh2
    (show sk.install_count + 1 + 1 < 2 ^ 64 by omega)
  have l3 : (lookupM (record_install (record_install st0 caller t1 id).2 caller t2
      id).2.install_rate_limits (caller, id)).getD (0, t3) = (2, t1) := by
    rw [e2]
    simp [lookupM_insertM]
  have skh3 : lookupM (record_install (record_install st0 caller t1 id).2 caller t2
      id).2.skills id =
      some { sk with install_count := sk.install_count + 1 + 1 } := by
    rw [e2]
    simp [lookupM_updateM, skh2]
  have e3 := record_install_ok_step
    (record_install (record_install st0 caller t1 id).2 caller t2 id).2 caller t3 id 2 t1
    { sk with install_count := sk.install_count + 1 + 1 } l3 (by omega) (by decide) skh3
    (show sk.install_count + 1 + 1 + 1 < 2 ^ 64 by omega)
  have l4 : (lookupM (record_install (record_install (record_install st0 caller t1 id).2
      caller t2 id).2 caller t3 id).2.install_rate_limits (caller, id)).getD (0, t4) =
      (3, t1) := by
    rw [e3]
    simp [lookupM_insertM]
  have skh4 : lookupM (record_install (record_install (record_install st0 caller t1
      id).2 caller t2 id).2 caller t3 id).2.skills id =
      some { sk with install_count := sk.install_count + 1 + 1 + 1 } := by
    rw [e3]
    simp [lookupM_updateM, skh3]
  have e4 := record_install_ok_step
    (record_install (record_install (record_install st0 caller t1 id).2 caller t2 id).2
      caller t3 id).2 caller t4 id 3 t1
    { sk with install_count := sk.install_count + 1 + 1 + 1 } l4 (by omega) (by decide)
    skh4 (show sk.install_count + 1 + 1 + 1 + 1 < 2 ^ 64 by omega)
  have l5 : (lookupM (record_install (record_install (record_install (record_install st0
      caller t1 id).2 caller t2 id).2 caller t3 id).2 caller t4 id).2.install_rate_limits
      (caller, id)).getD (0, t5) = (4, t1) := by
    rw [e4]
    simp [lookupM_insertM]
  have skh5 : lookupM (record_install (record_install (record_install (record_install
      st0 caller t1 id).2 caller t2 id).2 caller t3 id).2 caller t4 id).2.skills id =
      some { sk with install_count := sk.install_count + 1 + 1 + 1 + 1 } := by
    rw [e4]
    simp [lookupM_updateM, skh4]
  have e5 := record_install_ok_step
    (record_install (record_install (record_install (record_install st0 caller t1 id).2
      caller t2 id).2 caller t3 id).2 caller t4 id).2 caller t5 id 4 t1
    { sk with install_count := sk.install_count + 1 + 1 + 1 + 1 } l5 (by omega)
    (by decide) skh5 (show sk.install_count + 1 + 1 + 1 + 1 + 1 < 2 ^ 64 by omega)
  have l6 : (lookupM (record_install (record_install (record_install (record_install
      (record_install st0 caller t1 id).2 caller t2 id).2 caller t3 id).2 caller t4
      id).2 caller t5 id).2.install_rate_limits (caller, id)).getD (0, t6) = (5, t1) := by
    rw [e5]
    simp [lookupM_insertM]
  have skh6 : lookupM (record_install (record_install (record_install (record_install
      (record_install st0 caller t1 id).2 caller t2 id).2 caller t3 id).2 caller t4
      id).2 caller t5 id).2.skills id =
      some { sk with install_count := sk.install_count + 1 + 1 + 1 + 1 + 1 } := by
    rw [e5]
    simp [lookupM_updateM, skh5]
  have e6 := record_install_refused_step (record_install (record_install (record_install
      (record_install (record_install st0 caller t1 id).2 caller t2 id).2 caller t3
      id).2 caller t4 id).2 caller t5 id).2 caller t6 id 5 t1 l6 (by omega) (by decide)
  simp only [riChain]
  refine ⟨?_, ?_, ?_, ?_, ?_, ?_, ?_, ?_, ?_⟩
  · rw [e1]
  · rw [e2]
  · rw [e3]
  · rw [e4]
  · rw [e5]
  · rw [skh6]
    have hn : sk.install_count + 1 + 1 + 1 + 1 + 1 = sk.install_count + 5 := by omega
    simp [hn]
  · rw [e6]
  · rw [e6]
  · intro st now c w sk2 hml hexp hmsk hm64
    have er := record_install_reset_step st caller now id c w sk2
      (by rw [hml]; rfl) hexp hmsk hm64
    constructor
    · rw [er]
    · rw [er]
      simp [lookupM_insertM]

/-- Witness for C7 at the reachable state `cexSt1` (skill `"s"` with
`install_count = 0`, empty ledger), six calls at times 10…60 ns. -/
theorem c7_rate_limit_witness :
    lookupM cexSt1.install_rate_limits (pUser, "s") = none ∧
    lookupM cexSt1.skills "s" = some skill0 ∧
    (record_install cexSt1 pUser 10 "s").1 = .ok (skill0.install_count + 1) ∧
    (record_install (riChain cexSt1 pUser "s" [10, 20, 30, 40]) pUser 50 "s").1 =
      .ok (skill0.install_count + 5) ∧
    (record_install (riChain cexSt1 pUser "s" [10, 20, 30, 40, 50]) pUser 60 "s").1 =
      .error ("Rate limited: max " ++ toString MAX_INSTALLS_PER_WINDOW ++
        " installs per skill per hour") :=
  ⟨rfl, rfl,
   (c7_rate_limit cexSt1 pUser "s" skill0 10 20 30 40 50 60 rfl rfl (by decide)
     (by decide) (by decide) (by decide) (by decide) (by decide)).1,
   (c7_rate_limit cexSt1 pUser "s" skill0 10 20 30 40 50 60 rfl rfl (by decide)
     (by decide) (by decide) (by decide) (by decide) (by decide)).2.2.2.2.1,
   (c7_rate_limit cexSt1 pUser "s" skill0 10 20 30 40 50 60 rfl rfl (by decide)
     (by decide) (by decide) (by decide) (by decide) (by decide)).2.2.2.2.2.2.1⟩

set_option maxHeartbeats 1600000 in
/-- C9: a `record_install` call naming a skill id absent from the catalog
returns "Skill not found" but still consumes the caller's rate-limit
budget: the ledger entry is incremented before the skill lookup, so after
five such failed calls within one hour the entry reads `(5, t1)`, the
catalog was never touched, and the sixth call for that id is refused as
rate-limited. -/
theorem c9_missing_skill_consumes_budget (st0 : CanisterState) (caller : Principal)
    (id : String) (t1 t2 t3 t4 t5 t6 : Nat)
    (hfresh : lookupM st0.install_rate_limits (caller, id) = none)
    (hsk : lookupM st0.skills id = none)
    (h2 : t2 ≤ t1 + RATE_LIMIT_WINDOW_NS)
    (h3 : t3 ≤ t1 + RATE_LIMIT_WINDOW_NS)
    (h4 : t4 ≤ t1 + RATE_LIMIT_WINDOW_NS)
    (h5 : t5 ≤ t1 + RATE_LIMIT_WINDOW_NS)
    (h6 : t6 ≤ t1 + RATE_LIMIT_WINDOW_NS) :
    ((record_install st0 caller t1 id).1 = .error ("Skill not found: " ++ id)) ∧
    ((record_install (riChain st0 caller id [t1]) caller t2 id).1 =
      .error ("Skill not found: " ++ id)) ∧
    ((record_install (riChain st0 caller id [t1, t2]) caller t3 id).1 =
      .error ("Skill not found: " ++ id)) ∧
    ((record_install (riChain st0 caller id [t1, t2, t3]) caller t4 id).1 =
      .error ("Skill not found: " ++ id)) ∧
    ((record_install (riChain st0 caller id [t1, t2, t3, t4]) caller t5 id).1 =
      .error ("Skill not found: " ++ id)) ∧
    (lookupM (riChain st0 caller id [t1, t2, t3, t4, t5]).install_rate_limits
      (caller, id) = some (5, t1)) ∧
    ((riChain st0 caller id [t1, t2, t3, t4, t5]).skills = st0.skills) ∧
    ((record_install (riChain st0 caller id [t1, t2, t3, t4, t5]) caller t6 id).1 =
      .error ("Rate limited: max " ++ toString MAX_INSTALLS_PER_WINDOW ++
        " installs per skill per hour")) ∧
    ((record_install (riChain st0 caller id [t1, t2, t3, t4, t5]) caller t6 id).2 =
      riChain st0 caller id [t1, t2, t3, t4, t5]) := by
  have e1 := record_install_notfound_step st0 caller t1 id 0 t1
    (by rw [hfresh]; rfl) (by omega) (by decide) hsk
  have l2 : (lookupM (record_install st0 caller t1 id).2.install_rate_limits
      (caller, id)).getD (0, t2) = (1, t1) := by
    rw [e1]
    simp [lookupM_insertM]
  have n2 : lookupM (record_install st0 caller t1 id).2.skills id = none := by
    rw [e1]
    simpa using hsk
  have e2 := record_install_notfound_step (record_install st0 caller t1 id).2 caller t2
    id 1 t1 l2 (by omega) (by decide) n2
  have l3 : (lookupM (record_install (record_install st0 caller t1 id).2 caller t2
      id).2.install_rate_limits (caller, id)).getD (0, t3) = (2, t1) := by
    rw [e2]
    simp [lookupM_insertM]
  have n3 : lookupM (record_install (record_install st0 caller t1 id).2 caller t2
      id).2.skills id = none := by
    rw [e2]
    simpa using n2
  have e3 := record_install_notfound_step (record_install (record_install st0 caller t1
    id).2 caller t2 id).2 caller t3 id 2 t1 l3 (by omega) (by decide) n3
  have l4 : (lookupM (record_install (record_install (record_install st0 caller t1 id).2
      caller t2 id).2 caller t3 id).2.install_rate_limits (caller, id)).getD (0, t4) =
      (3, t1) := by
    rw [e3]
    simp [lookupM_insertM]
  have n4 : lookupM (record_install (record_install (record_install st0 caller t1 id).2
      caller t2 id).2 caller t3 id).2.skills id = none := by
    rw [e3]
    simpa using n3
  have e4 := record_install_notfound_step (record_install (record_install
    (record_install st0 caller t1 id).2 caller t2 id).2 caller t3 id).2 caller t4 id 3
    t1 l4 (by omega) (by decide) n4
  have l5 : (lookupM (record_install (record_install (record_install (record_install st0
      caller t1 id).2 caller t2 id).2 caller t3 id).2 caller t4 id).2.install_rate_limits
      (caller, id)).getD (0, t5) = (4, t1) := by
    rw [e4]
    simp [lookupM_insertM]
  have n5 : lookupM (record_install (record_install (record_install (record_install st0
      caller t1 id).2 caller t2 id).2 caller t3 id).2 caller t4 id).2.skills id =
      none := by
    rw [e4]
    simpa using n4
  have e5 := record_install_notfound_step (record_install (record_install
    (record_install (record_install st0 caller t1 id).2 caller t2 id).2 caller t3 id).2
    caller t4 id).2 caller t5 id 4 t1 l5 (by omega) (by decide) n5
  have l6 : (lookupM (record_install (record_install (record_install (record_install
      (record_install st0 caller t1 id).2 caller t2 id).2 caller t3 id).2 caller t4
      id).2 caller t5 id).2.install_rate_limits (caller, id)).getD (0, t6) = (5, t1) := by
    rw [e5]
    simp [lookupM_insertM]
  have e6 := record_install_refused_step (record_install (record_install (record_install
    (record_install (record_install st0 caller t1 id).2 caller t2 id).2 caller t3 id).2
    caller t4 id).2 caller t5 id).2 caller t6 id 5 t1 l6 (by omega) (by decide)
  simp only [riChain]
  refine ⟨?_, ?_, ?_, ?_, ?_, ?_, ?_, ?_, ?_⟩
  · rw [e1]
  · rw [e2]
  · rw [e3]
  · rw [e4]
  · rw [e5]
  · rw [e5]
    simp [lookupM_insertM]
  · rw [e5, e4, e3, e2, e1]
  · rw [e6]
  · rw [e6]

/-- Witness for C9 at the reachable state `cexSt1` and the absent skill id
`"zzz"`. -/
theorem c9_missing_skill_witness :
    lookupM cexSt1.install_rate_limits (pUser, "zzz") = none ∧
    lookupM cexSt1.skills "zzz" = none ∧
    (record_install cexSt1 pUser 10 "zzz").1 = .error ("Skill not found: " ++ "zzz") ∧
    lookupM (riChain cexSt1 pUser "zzz" [10, 20, 30, 40, 50]).install_rate_limits
      (pUser, "zzz") = some (5, 10) ∧
    (record_install (riChain cexSt1 pUser "zzz" [10, 20, 30, 40, 50]) pUser 60 "zzz").1 =
      .error ("Rate limited: max " ++ toString MAX_INSTALLS_PER_WINDOW ++
        " installs per skill per hour") :=
  ⟨rfl, rfl,
   (c9_missing_skill_consumes_budget cexSt1 pUser "zzz" 10 20 30 40 50 60 rfl rfl
     (by decide) (by decide) (by decide) (by decide) (by decide)).1,
   (c9_missing_skill_consumes_budget cexSt1 pUser "zzz" 10 20 30 40 50 60 rfl rfl
     (by decide) (by decide) (by decide) (by decide) (by decide)).2.2.2.2.2.1,
   (c9_missing_skill_consumes_budget cexSt1 pUser "zzz" 10 20 30 40 50 60 rfl rfl
     (by decide) (by decide) (by decide) (by decide) (by decide)).2.2.2.2.2.2.2.1⟩

/-! ## Claim C5 -/

/-- C5: on a Processing job, a payload that fails JSON parsing makes both
submit endpoints return the parse error with the state completely
unchanged — the job stays Processing, no skill or user data is touched, and
no cleanup runs. -/
theorem c5_parse_failure (st : CanisterState) (caller : Principal) (now : Nat)
    (job_id : String) (job : AnalysisJob) (msg tv pv : String)
    (hw : is_admin_or_worker st caller = true)
    (hj : lookupM st.jobs job_id = some job)
    (hp : job.status = .Processing) :
    submit_job_result st caller now job_id (.malformed msg) =
      (.error ("Failed to parse analysis: " ++ ("JSON parse error: " ++ msg)), st) ∧
    submit_job_result_with_metadata st caller now job_id (.malformed msg) tv pv =
      (.error ("Failed to parse analysis: " ++ ("JSON parse error: " ++ msg)), st) := by
  constructor
  · unfold submit_job_result
    rw [hj]
    simp [hw, hp, parse_analysis_json]
  · unfold submit_job_result_with_metadata
    rw [hj]
    simp [hw, hp, parse_analysis_json]

/-- Witness for C5 at the reachable state `cexSt6`. -/
theorem c5_parse_failure_witness :
    is_admin_or_worker cexSt6 pWorker = true ∧
    lookupM cexSt6.jobs "job-1" = some cexJob1 ∧
    cexJob1.status = .Processing ∧
    submit_job_result cexSt6 pWorker 1000 "job-1" (.malformed "expected value") =
      (.error ("Failed to parse analysis: " ++
        ("JSON parse error: " ++ "expected value")), cexSt6) :=
  ⟨rfl, rfl, rfl,
    (c5_parse_failure cexSt6 pWorker 1000 "job-1" cexJob1 "expected value" "" ""
      rfl rfl rfl).1⟩

/-! ## Claim C10 -/

/-- C10: `get_skill` gives direct key matches precedence, falls back to the
expanded id `owner/repo/repo` exactly for absent two-part ids, and returns
`none` for absent ids of any other shape. -/
theorem c10_get_skill_fallback (st : CanisterState) :
    (∀ id sk, lookupM st.skills id = some sk → get_skill st id = some sk) ∧
    (∀ id p q, lookupM st.skills id = none → rustSplit '/' id = [p, q] →
      get_skill st id = lookupM st.skills (p ++ "/" ++ q ++ "/" ++ q)) ∧
    (∀ id, lookupM st.skills id = none → (rustSplit '/' id).length ≠ 2 →
      get_skill st id = none) := by
  refine ⟨?_, ?_, ?_⟩
  · intro id sk h
    unfold get_skill
    rw [h]
  · intro id p q h hsplit
    unfold get_skill
    rw [h]
    simp only [hsplit]
    simp [List.getD]
  · intro id h hlen
    unfold get_skill
    rw [h]
    simp [hlen]

def fbSkill : Skill := { skill0 with id := "o/r/r" }

def fbState : CanisterState := { emptyState with skills := [("o/r/r", fbSkill)] }

/-- Witness for C10: direct hit, two-part fallback, and a one-part miss. -/
theorem c10_get_skill_witness :
    get_skill fbState "o/r/r" = some fbSkill ∧
    (rustSplit '/' "o/r" = ["o", "r"] ∧
      get_skill fbState "o/r" = lookupM fbState.skills ("o" ++ "/" ++ "r" ++ "/" ++ "r")) ∧
    ((rustSplit '/' "x").length ≠ 2 ∧ get_skill fbState "x" = none) :=
  ⟨(c10_get_skill_fallback fbState).1 "o/r/r" fbSkill rfl,
   ⟨by decide, (c10_get_skill_fallback fbState).2.1 "o/r" "o" "r" rfl (by decide)⟩,
   ⟨by decide, (c10_get_skill_fallback fbState).2.2 "x" rfl (by decide)⟩⟩

/-! ## Claim C8 -/

/-- C8: `sanitize_skill_content` on any content within the size limit strips
NUL bytes, then rewrites the line list so that every maximal run of `k`
blank lines becomes `min k 2` empty lines while non-blank lines are kept
verbatim (the `collapseRuns` description); concretely, an admin call
`update_skill_md(s, "a\n\n\n\n\nb\n")` succeeds and stores exactly
`"a\n\n\nb\n"`. -/
theorem c8_sanitize_collapses_blank_runs (content : String)
    (h : content.utf8ByteSize ≤ MAX_SKILL_CONTENT_BYTES) :
    sanitize_skill_content content =
      .ok (String.mk (renderOut (collapseRuns (rustLines (stripNul content.data))))) ∧
    (update_skill_md cexSt1 pAdmin 5 "s" (some "a\n\n\n\n\nb\n")).1 = .ok () ∧
    lookupM (update_skill_md cexSt1 pAdmin 5 "s" (some "a\n\n\n\n\nb\n")).2.skills "s" =
      some { skill0 with skill_md_content := some "a\n\n\nb\n", updated_at := 5 } := by
  refine ⟨?_, rfl, rfl⟩
  unfold sanitize_skill_content
  rw [if_neg (by omega)]
  rw [renderLines_eq_renderOut]
  rw [emittedLines_zero_eq_collapseRuns (rustLines (stripNul content.data)).length
    (rustLines (stripNul content.data)) (Nat.le_refl _)]

/-- Witness for C8 at the concrete content of the claim: the stored
markdown is exactly `"a\n\n\nb\n"`, and the sanitizer itself maps the
input to that string. -/
theorem c8_sanitize_witness :
    ("a\n\n\n\n\nb\n" : String).utf8ByteSize ≤ MAX_SKILL_CONTENT_BYTES ∧
    sanitize_skill_content "a\n\n\n\n\nb\n" = .ok "a\n\n\nb\n" ∧
    lookupM (update_skill_md cexSt1 pAdmin 5 "s" (some "a\n\n\n\n\nb\n")).2.skills "s" =
      some { skill0 with skill_md_content := some "a\n\n\nb\n", updated_at := 5 } :=
  ⟨by decide, rfl,
   (c8_sanitize_collapses_blank_runs "a\n\n\n\n\nb\n" (by decide)).2.2⟩

end Skillsic
